/-
Verification of the multicast paging utility's packet pipeline: a shallow
embedding of the G.711 codecs, the RTP and Polycom packet codecs, the page
statistics, the linear resampler and the audio analyzer, with theorems about
their specified behaviour. Machine integers are modelled as `Nat`/`Int` with
explicit wrap-around where the source wraps; `f64` arithmetic is modelled
exactly over `ℚ` (dB levels through the monotone squared-ratio encoding
documented at `Analyzer.Db`).
-/
import Mathlib

namespace G711

/-- Exponent search of `G711UlawCodec::encode_sample` (src/codec/g711.rs):
`exponent` starts at 7 with `exp_mask = 0x4000`, and decrements with the mask
halving while `exponent > 0 && (sample & exp_mask) == 0`. The loop runs at
most 7 times and is unrolled here; the single-bit test `sample & m == 0`
for the power-of-two mask `m` is rendered `sample / m % 2 = 0`. -/
def ulawExponent (sample : Nat) : Nat :=
  if sample / 0x4000 % 2 = 0 then
    if sample / 0x2000 % 2 = 0 then
      if sample / 0x1000 % 2 = 0 then
        if sample / 0x800 % 2 = 0 then
          if sample / 0x400 % 2 = 0 then
            if sample / 0x200 % 2 = 0 then
              if sample / 0x100 % 2 = 0 then 0 else 1
            else 2
          else 3
        else 4
      else 5
    else 6
  else 7

/-- `G711UlawCodec::encode_sample` (src/codec/g711.rs). The i32-widened `abs`
of the source is `Int.natAbs`, exact on the full i16 range; `x & 0x0F` is
`x % 16`, `x >> k` is `x / 2^k`; the three OR-ed fields occupy disjoint bits,
so `|` is `+`, and the final `!` on the byte is `255 - _`. -/
def ulawEncode (pcm : Int) : Nat :=
  let sign : Nat := if pcm < 0 then 0x80 else 0x00
  let absSample : Nat := min pcm.natAbs 32635
  let sample : Nat := absSample + 0x84
  let exponent : Nat := ulawExponent sample
  let mantissa : Nat := sample / 2 ^ (exponent + 3) % 16
  255 - (sign + exponent * 16 + mantissa)

/-- `G711UlawCodec::decode_sample` (src/codec/g711.rs): the leading `!ulaw` is
`255 - ulaw % 256`; sign is bit 7, exponent bits 4-6, mantissa bits 0-3. -/
def ulawDecode (b : Nat) : Int :=
  let u : Nat := 255 - b % 256
  let sign : Bool := 128 ≤ u
  let exponent : Nat := u / 16 % 8
  let mantissa : Nat := u % 16
  let sample : Int := ((mantissa * 2 + 33) * 2 ^ (exponent + 2) : Nat)
  let sample : Int := sample - 33 * 4
  if sign then -sample else sample

/-- Exponent search of `G711AlawCodec::encode_sample` (src/codec/g711.rs) for
`sample >= 32`: `exp` starts at 1 with `temp = sample >> 1`; while
`temp >= 32 && exp < 7`, `temp` halves and `exp` increments — at most 6
iterations (the `exp < 7` guard stops the seventh), unrolled here with
`temp` after `k` halvings written `sample / 2^(k+1)`. -/
def alawExponent (sample : Nat) : Nat :=
  if 32 ≤ sample / 2 then
    if 32 ≤ sample / 4 then
      if 32 ≤ sample / 8 then
        if 32 ≤ sample / 16 then
          if 32 ≤ sample / 32 then
            if 32 ≤ sample / 64 then 7 else 6
          else 5
        else 4
      else 3
    else 2
  else 1

/-- `G711AlawCodec::encode_sample` (src/codec/g711.rs). The i32-widened `abs`
is `Int.natAbs`; `>> 3` is `/ 8`; the final `^ 0x55` acts fieldwise on the
disjoint bit fields (`0x55 = 0b01010101` touches bits 0-3 of the mantissa as
`^^^ 5` and bits 4-6 of the exponent as `^^^ 5`, and leaves the sign bit). -/
def alawEncode (pcm : Int) : Nat :=
  let sign : Nat := if pcm < 0 then 0x80 else 0x00
  let absSample : Nat := min pcm.natAbs 32767
  let sample : Nat := absSample / 8
  let exponent : Nat := if sample < 32 then 0 else alawExponent sample
  let mantissa : Nat := if sample < 32 then sample / 2 else sample / 2 ^ exponent % 16
  sign + 16 * (exponent ^^^ 5) + (mantissa ^^^ 5)

/-- `G711AlawCodec::decode_sample` (src/codec/g711.rs): XOR the byte with
`0x55`, then sign is bit 7, exponent bits 4-6, mantissa bits 0-3; `<< 3`
is `* 8`. -/
def alawDecode (b : Nat) : Int :=
  let u : Nat := b % 256 ^^^ 0x55
  let sign : Bool := 128 ≤ u
  let exponent : Nat := u / 16 % 8
  let mantissa : Nat := u % 16
  let sample : Nat :=
    if exponent = 0 then mantissa * 2 + 1
    else (mantissa * 2 + 33) * 2 ^ (exponent - 1)
  let sample : Int := (sample * 8 : Nat)
  if sign then -sample else sample

end G711

namespace Codec

/-- `CodecError` (src/codec/traits.rs). -/
inductive CodecError where
  | unsupportedPayloadType (pt : Nat)
  | invalidFrame (msg : String)
  | encodeError (msg : String)
  | decodeError (msg : String)
  | initError (msg : String)
  | invalidFrameSize (expected got : Nat)
deriving DecidableEq, Repr

/-- `i16::from_be_bytes([a, b])`: big-endian pair to a signed 16-bit value. -/
def i16FromBeBytes (a b : Nat) : Int :=
  let w : Nat := a % 256 * 256 + b % 256
  if w < 32768 then (w : Int) else (w : Int) - 65536

/-- `i16::to_be_bytes`: the two's-complement bit pattern of `s`, big-endian. -/
def i16ToBeBytes (s : Int) : List Nat :=
  let w : Nat := (s % 65536).toNat
  [w / 256, w % 256]

/-- The `chunks_exact(2)` loop of `L16Codec::decode` (src/codec/pcm.rs);
a trailing odd byte cannot occur because decode checks parity first. -/
def l16DecodePairs : List Nat → List Int
  | [] => []
  | a :: b :: rest => i16FromBeBytes a b :: l16DecodePairs rest
  | [_] => []

/-- `L16Codec::decode` (src/codec/pcm.rs). -/
def l16Decode (input : List Nat) : Except CodecError (List Int) :=
  if input.length % 2 ≠ 0 then
    .error (.invalidFrame "L16 data must have even number of bytes")
  else
    .ok (l16DecodePairs input)

/-- `L16Codec::encode` (src/codec/pcm.rs). -/
def l16Encode (samples : List Int) : Except CodecError (List Nat) :=
  .ok (samples.flatMap i16ToBeBytes)

end Codec

namespace Rtp

/-- `RtpError` (src/network/rtp.rs). -/
inductive RtpError where
  | tooShort (got : Nat)
  | invalidVersion (v : Nat)
  | truncated (expected actual : Nat)
  | invalidPadding
deriving DecidableEq, Repr

/-- `RtpHeader` (src/network/rtp.rs). Bytes are `Nat` values below 256. -/
structure RtpHeader where
  version : Nat
  padding : Bool
  extension : Bool
  csrcCount : Nat
  marker : Bool
  payloadType : Nat
  sequenceNumber : Nat
  timestamp : Nat
  ssrc : Nat
  csrc : List Nat
deriving DecidableEq, Repr

/-- `RtpPacket` (src/network/rtp.rs); the `received_at` instant and `source`
address, which the parser copies through unexamined, are not modelled. -/
structure RtpPacket where
  header : RtpHeader
  payload : List Nat
deriving DecidableEq, Repr

/-- `u16::from_be_bytes`. -/
def u16be (a b : Nat) : Nat := a * 256 + b

/-- `u32::from_be_bytes`. -/
def u32be (a b c d : Nat) : Nat := ((a * 256 + b) * 256 + c) * 256 + d

/-- `u16::to_be_bytes`. -/
def u16beBytes (n : Nat) : List Nat := [n / 2 ^ 8 % 256, n % 256]

/-- `u32::to_be_bytes`. -/
def u32beBytes (n : Nat) : List Nat :=
  [n / 2 ^ 24 % 256, n / 2 ^ 16 % 256, n / 2 ^ 8 % 256, n % 256]

/-- Tail of `RtpPacket::parse_with_time` (src/network/rtp.rs): padding
handling and the payload slice `data[header_len..payload_end]`. -/
def parseFinish (data : List Nat) (version : Nat) (padding extension : Bool)
    (csrcCount : Nat) (marker : Bool) (payloadType sequenceNumber timestamp ssrc : Nat)
    (csrc : List Nat) (headerLen : Nat) : Except RtpError RtpPacket :=
  if padding then
    let paddingLen := data.getD (data.length - 1) 0
    if paddingLen = 0 ∨ data.length - headerLen < paddingLen then .error .invalidPadding
    else .ok ⟨⟨version, padding, extension, csrcCount, marker, payloadType,
      sequenceNumber, timestamp, ssrc, csrc⟩,
      (data.take (data.length - paddingLen)).drop headerLen⟩
  else .ok ⟨⟨version, padding, extension, csrcCount, marker, payloadType,
    sequenceNumber, timestamp, ssrc, csrc⟩,
    (data.take data.length).drop headerLen⟩

/-- `RtpPacket::parse_with_time` (src/network/rtp.rs). The `data.len() < 12`
guard is rendered as the 12-byte destructuring, with the wildcard branch
returning `TooShort` for shorter inputs. -/
def parse (data : List Nat) : Except RtpError RtpPacket :=
  match data with
  | b0 :: b1 :: b2 :: b3 :: b4 :: b5 :: b6 :: b7 :: b8 :: b9 :: b10 :: b11 :: _rest =>
    let version := (b0 >>> 6) &&& 0x03
    if version ≠ 2 then .error (.invalidVersion version) else
    let padding := ((b0 >>> 5) &&& 0x01) != 0
    let extension := ((b0 >>> 4) &&& 0x01) != 0
    let csrcCount := b0 &&& 0x0F
    let marker := ((b1 >>> 7) &&& 0x01) != 0
    let payloadType := b1 &&& 0x7F
    let sequenceNumber := u16be b2 b3
    let timestamp := u32be b4 b5 b6 b7
    let ssrc := u32be b8 b9 b10 b11
    let headerLen := 12 + csrcCount * 4
    if data.length < headerLen then .error (.truncated headerLen data.length) else
    let csrc := (List.range csrcCount).map fun i =>
      u32be (data.getD (12 + i * 4) 0) (data.getD (12 + i * 4 + 1) 0)
        (data.getD (12 + i * 4 + 2) 0) (data.getD (12 + i * 4 + 3) 0)
    if extension then
      if data.length < headerLen + 4 then .error (.truncated (headerLen + 4) data.length) else
      let extLength := u16be (data.getD (headerLen + 2) 0) (data.getD (headerLen + 3) 0) * 4
      let headerLen2 := headerLen + 4 + extLength
      if data.length < headerLen2 then .error (.truncated headerLen2 data.length) else
      parseFinish data version padding extension csrcCount marker payloadType
        sequenceNumber timestamp ssrc csrc headerLen2
    else
      parseFinish data version padding extension csrcCount marker payloadType
        sequenceNumber timestamp ssrc csrc headerLen
  | _ => .error (.tooShort data.length)

/-- `RtpPacket::build` (src/network/rtp.rs): fixed 12-byte header
(V=2, P=0, X=0, CC=0) followed by the payload. -/
def build (payloadType : Nat) (sequenceNumber timestamp ssrc : Nat)
    (payload : List Nat) (marker : Bool) : List Nat :=
  [0x80, (if marker then 0x80 else 0x00) ||| (payloadType &&& 0x7F)]
    ++ u16beBytes sequenceNumber ++ u32beBytes timestamp ++ u32beBytes ssrc ++ payload

end Rtp

namespace Polycom

/-- `PolycomError` (src/network/polycom.rs). -/
inductive PolycomError where
  | tooShort (expected actual : Nat)
  | invalidOpCode (op : Nat)
  | invalidChannel (ch : Nat)
  | invalidCodec (c : Nat)
  | truncated (expected actual : Nat)
  | callerIdTooLong
deriving DecidableEq, Repr

/-- `PolycomCodec` (src/network/polycom.rs). -/
inductive PolycomCodec where
  | g711u
  | g711a
  | g722
deriving DecidableEq, Repr

/-- `CODEC_G711U` / `CODEC_G711A` / `CODEC_G722` and
`PolycomCodec::to_byte` (src/network/polycom.rs). -/
def PolycomCodec.toByte : PolycomCodec → Nat
  | .g711u => 0x00
  | .g711a => 0x08
  | .g722 => 0x09

/-- `PolycomCodec::from_byte` (src/network/polycom.rs). -/
def PolycomCodec.fromByte : Nat → Option PolycomCodec
  | 0x00 => some .g711u
  | 0x08 => some .g711a
  | 0x09 => some .g722
  | _ => none

/-- `G711_FRAME_SIZE` (src/network/polycom.rs): 160 bytes per 20 ms frame. -/
def G711_FRAME_SIZE : Nat := 160

/-- `G722_FRAME_SIZE` (src/network/polycom.rs): also 160 bytes — "Polycom
uses 160-byte frames for G.722, not 240 bytes". -/
def G722_FRAME_SIZE : Nat := 160

/-- `PolycomCodec::frame_size` (src/network/polycom.rs). -/
def PolycomCodec.frameSize : PolycomCodec → Nat
  | .g711u | .g711a => G711_FRAME_SIZE
  | .g722 => G722_FRAME_SIZE

/-- `PacketType` (src/network/polycom.rs); `End` is rendered `finish`
(`end` is a Lean keyword). -/
inductive PacketType where
  | alert
  | transmit
  | finish
deriving DecidableEq, Repr

/-- `PacketType::from_op_code` (src/network/polycom.rs):
alert `0x0f`, transmit `0x10`, end `0xff`. -/
def PacketType.fromOpCode : Nat → Option PacketType
  | 0x0f => some .alert
  | 0x10 => some .transmit
  | 0xff => some .finish
  | _ => none

/-- `PacketType::to_op_code` (src/network/polycom.rs). -/
def PacketType.toOpCode : PacketType → Nat
  | .alert => 0x0f
  | .transmit => 0x10
  | .finish => 0xff

/-- `PolycomHeader` (src/network/polycom.rs). The caller ID `String` is
modelled as its byte sequence. -/
structure PolycomHeader where
  packetType : PacketType
  channel : Nat
  hostSerial : Nat × Nat × Nat × Nat
  callerId : List Nat
deriving DecidableEq, Repr

/-- `PolycomHeader::parse` (src/network/polycom.rs). `from_utf8_lossy` is the
identity on the byte-string model; the trim at the first NUL is `takeWhile`. -/
def PolycomHeader.parse (data : List Nat) : Except PolycomError (PolycomHeader × Nat) :=
  if data.length < 7 then .error (.tooShort 7 data.length) else
  let opCode := data.getD 0 0
  match PacketType.fromOpCode opCode with
  | none => .error (.invalidOpCode opCode)
  | some packetType =>
    let channel := data.getD 1 0
    if channel = 0 ∨ 50 < channel then .error (.invalidChannel channel) else
    let hostSerial := (data.getD 2 0, data.getD 3 0, data.getD 4 0, data.getD 5 0)
    let callerIdLen := data.getD 6 0
    let headerLen := 7 + callerIdLen
    if data.length < headerLen then .error (.truncated headerLen data.length) else
    let callerId :=
      if 0 < callerIdLen then
        ((data.take (7 + callerIdLen)).drop 7).takeWhile (fun b => b != 0)
      else []
    .ok (⟨packetType, channel, hostSerial, callerId⟩, headerLen)

/-- `PolycomHeader::encode` (src/network/polycom.rs): pads the caller ID to
`MIN_CALLER_ID_LEN = 13` bytes with NULs (`Vec::resize` to `7 + padded_len`). -/
def PolycomHeader.encode (h : PolycomHeader) : Except PolycomError (List Nat) :=
  if 255 < h.callerId.length then .error .callerIdTooLong else
  let paddedLen := max h.callerId.length 13
  let buf := h.packetType.toOpCode :: h.channel :: h.hostSerial.1 :: h.hostSerial.2.1
    :: h.hostSerial.2.2.1 :: h.hostSerial.2.2.2 :: paddedLen :: h.callerId
  let buf := if h.callerId.length < 13 then buf ++ List.replicate (7 + paddedLen - buf.length) 0
    else buf
  .ok buf

/-- `u32::to_le_bytes`. -/
def u32leBytes (n : Nat) : List Nat :=
  [n % 256, n / 2 ^ 8 % 256, n / 2 ^ 16 % 256, n / 2 ^ 24 % 256]

/-- `AudioHeader` (src/network/polycom.rs). -/
structure AudioHeader where
  codec : PolycomCodec
  flags : Nat
  sampleCount : Nat
deriving DecidableEq, Repr

/-- `AudioHeader::encode_with_endian` (src/network/polycom.rs). -/
def AudioHeader.encodeWithEndian (h : AudioHeader) (bigEndian : Bool) : List Nat :=
  h.codec.toByte :: h.flags ::
    (if bigEndian then Rtp.u32beBytes h.sampleCount else u32leBytes h.sampleCount)

/-- `PolycomPacketBuilder` (src/network/polycom.rs). -/
structure PolycomPacketBuilder where
  channel : Nat
  hostSerial : Nat × Nat × Nat × Nat
  callerId : List Nat
  codec : PolycomCodec
  sampleCount : Nat
  previousFrame : Option (List Nat)
  skipRedundant : Bool
  skipAudioHeader : Bool
  littleEndian : Bool
deriving DecidableEq, Repr

/-- `PolycomPacketBuilder::generate_initial_sample_count`
(src/network/polycom.rs): the nanosecond clock reading, which the source
truncates to `u64`, is taken as the `seed` parameter; `wrapping_mul` on u64
is multiplication mod `2^64`, and the upper 32 bits are kept. -/
def generateInitialSampleCount (seed : Nat) : Nat :=
  let hash := seed % 2 ^ 64 * 0x517cc1b727220a95 % 2 ^ 64
  hash >>> 32

/-- `PolycomPacketBuilder::new` (src/network/polycom.rs), with the
clock-derived randomness supplied as `seed`. -/
def PolycomPacketBuilder.new (channel : Nat) (hostSerial : Nat × Nat × Nat × Nat)
    (callerId : List Nat) (codec : PolycomCodec) (seed : Nat) : PolycomPacketBuilder where
  channel := channel
  hostSerial := hostSerial
  callerId := callerId
  codec := codec
  sampleCount := generateInitialSampleCount seed
  previousFrame := none
  skipRedundant := false
  skipAudioHeader := false
  littleEndian := false

/-- `PolycomPacketBuilder::build_transmit` (src/network/polycom.rs):
header, optional audio subheader, optional redundant previous frame, current
frame; the sample counter advances by `codec.frame_size()` with `wrapping_add`
(mod `2^32`). Returns the packet bytes together with the updated builder. -/
def PolycomPacketBuilder.buildTransmit (b : PolycomPacketBuilder) (audioFrame : List Nat) :
    Except PolycomError (List Nat × PolycomPacketBuilder) :=
  let header := PolycomHeader.mk .transmit b.channel b.hostSerial b.callerId
  match header.encode with
  | .error e => .error e
  | .ok packet =>
    let packet :=
      if !b.skipAudioHeader then
        let audioHeader := AudioHeader.mk b.codec 0 b.sampleCount
        let p := packet ++ audioHeader.encodeWithEndian (!b.littleEndian)
        if !b.skipRedundant then
          match b.previousFrame with
          | some prev => p ++ prev
          | none => p
        else p
      else packet
    let packet := packet ++ audioFrame
    .ok (packet, { b with
      previousFrame := some audioFrame,
      sampleCount := (b.sampleCount + b.codec.frameSize) % 2 ^ 32 })

/-- `PolycomPacketBuilder::reset` (src/network/polycom.rs), with the
clock-derived randomness supplied as `seed`. -/
def PolycomPacketBuilder.reset (b : PolycomPacketBuilder) (seed : Nat) : PolycomPacketBuilder :=
  { b with sampleCount := generateInitialSampleCount seed, previousFrame := none }

/-- `PolycomPacket` (src/network/polycom.rs); the receive instant and source
address are not modelled. -/
structure PolycomPacket where
  header : PolycomHeader
  audioHeader : Option AudioHeader
  redundantFrame : Option (List Nat)
  audioFrame : Option (List Nat)
deriving DecidableEq, Repr

/-- `SessionState` (src/network/polycom.rs). -/
inductive SessionState where
  | idle
  | alerting
  | transmitting
  | ending
deriving DecidableEq, Repr

/-- `PolycomSession` (src/network/polycom.rs); the two `Instant` fields
(`started_at`, `last_packet_at`), which feed only the timeout logic, are not
modelled. -/
structure PolycomSession where
  channel : Nat
  state : SessionState
  callerId : List Nat
  hostSerial : Nat × Nat × Nat × Nat
  codec : Option PolycomCodec
  alertCount : Nat
  audioPacketCount : Nat
  endCount : Nat
deriving DecidableEq, Repr

/-- `PolycomSession::from_alert` (src/network/polycom.rs). -/
def PolycomSession.fromAlert (packet : PolycomPacket) : PolycomSession where
  channel := packet.header.channel
  state := .alerting
  callerId := packet.header.callerId
  hostSerial := packet.header.hostSerial
  codec := none
  alertCount := 1
  audioPacketCount := 0
  endCount := 0

/-- `PolycomSession::update` (src/network/polycom.rs). -/
def PolycomSession.update (s : PolycomSession) (packet : PolycomPacket) : PolycomSession :=
  match packet.header.packetType with
  | .alert => { s with alertCount := s.alertCount + 1 }
  | .transmit =>
    let s := if s.state = .alerting then { s with state := .transmitting } else s
    let s := match packet.audioHeader with
      | some audioHdr => { s with codec := some audioHdr.codec }
      | none => s
    { s with audioPacketCount := s.audioPacketCount + 1 }
  | .finish => { s with state := .ending, endCount := s.endCount + 1 }

/-- `PolycomSession::is_complete` (src/network/polycom.rs). -/
def PolycomSession.isComplete (s : PolycomSession) : Bool :=
  s.state == .ending && decide (3 ≤ s.endCount)

end Polycom

namespace Monitor

/-- `PageStats` (src/cli/monitor.rs). The jitter estimate
(`jitter_ms`, `jitter_accumulator`) and its inputs (`last_timestamp`,
`last_arrival`) are f64/`Instant` state feeding only the jitter field the
claims do not touch; they are not modelled. -/
structure PageStats where
  packetsReceived : Nat
  bytesReceived : Nat
  packetsLost : Nat
  lastSequence : Option Nat
deriving DecidableEq, Repr

/-- `PageStats::default()`. -/
def PageStats.default : PageStats := ⟨0, 0, 0, none⟩

/-- `PageStats::update` (src/cli/monitor.rs), taking the packet's 16-bit
sequence number and payload length; u16 `wrapping_add`/`wrapping_sub`
are rendered mod `2^16`. -/
def PageStats.update (st : PageStats) (seq payloadLen : Nat) : PageStats :=
  let st := { st with
    packetsReceived := st.packetsReceived + 1,
    bytesReceived := st.bytesReceived + payloadLen }
  let st :=
    match st.lastSequence with
    | some lastSeq =>
      let expected := (lastSeq + 1) % 2 ^ 16
      if seq ≠ expected then
        let gap := (seq + 2 ^ 16 - lastSeq) % 2 ^ 16
        if 1 < gap ∧ gap < 1000 then { st with packetsLost := st.packetsLost + (gap - 1) }
        else st
      else st
    | none => st
  { st with lastSequence := some seq }

/-- `PageStats::loss_percent` denominator structure (src/cli/monitor.rs):
modelled on the integer counters. -/
def PageStats.lossDenominator (st : PageStats) : Nat :=
  st.packetsReceived + st.packetsLost

end Monitor

namespace Transmit

/-- Truncation toward zero, the rounding of Rust's `as` casts from `f64` to
integer types; the model computes the interpolation in exact rationals. -/
def rustTrunc (q : ℚ) : Int := if 0 ≤ q then ⌊q⌋ else ⌈q⌉

/-- `f64 as i16`: truncate toward zero, saturating at the type bounds. -/
def rustCastI16 (q : ℚ) : Int := max (-32768) (min 32767 (rustTrunc q))

/-- Floor of the base-2 logarithm of a nonzero rational, i.e. the IEEE-754
binary exponent of its magnitude. -/
def floorLog2 (q : ℚ) : Int :=
  let a := q.num.natAbs
  let b := q.den
  let la := Nat.log2 a
  let lb := Nat.log2 b
  if b * 2 ^ la ≤ a * 2 ^ lb then (la : Int) - lb else (la : Int) - lb - 1

/-- Round to the nearest integer, ties to even (the IEEE-754 default). -/
def roundHalfEven (s : ℚ) : Int :=
  let n := ⌊s⌋
  let r := s - (n : ℚ)
  if r < 1 / 2 then n else if 1 / 2 < r then n + 1 else if n % 2 = 0 then n else n + 1

/-- Round a rational to the nearest IEEE-754 binary64 value (round to nearest,
ties to even): scale the magnitude into `[2^52, 2^53)`, round the 53-bit
significand half-to-even, and scale back. Faithful to `f64` for normal,
non-overflowing magnitudes, which covers every value this program computes. -/
def roundF64 (q : ℚ) : ℚ :=
  if q = 0 then 0
  else
    let e : Int := floorLog2 |q| - 52
    (if q < 0 then -1 else 1) * (roundHalfEven (|q| * 2 ^ (-e)) : ℚ) * 2 ^ e

/-- `f64` division: exact quotient, rounded to binary64. -/
def fdiv (x y : ℚ) : ℚ := roundF64 (x / y)

/-- `f64` multiplication: exact product, rounded to binary64. -/
def fmul (x y : ℚ) : ℚ := roundF64 (x * y)

/-- `f64` addition: exact sum, rounded to binary64. -/
def fadd (x y : ℚ) : ℚ := roundF64 (x + y)

/-- `f64` subtraction: exact difference, rounded to binary64. -/
def fsub (x y : ℚ) : ℚ := roundF64 (x - y)

/-- `simple_resample` (src/cli/transmit.rs and src/cli/polycom_transmit.rs):
linear-interpolation resampling. Every `f64` operation of the source is
modelled by the corresponding exact operation followed by `roundF64`;
`pos.floor()`, `pos.fract()` and the integer casts are exact in `f64` and are
modelled exactly. -/
def simple_resample (samples : List Int) (fromRate toRate : Nat) : List Int :=
  let ratio : ℚ := fdiv (roundF64 (fromRate : ℚ)) (roundF64 (toRate : ℚ))
  let newLen : Nat := (⌊fdiv (roundF64 (samples.length : ℚ)) ratio⌋).toNat
  (List.range newLen).map fun (i : Nat) =>
    let pos : ℚ := fmul (roundF64 (i : ℚ)) ratio
    let idx : Nat := (⌊pos⌋).toNat
    let frac : ℚ := pos - (⌊pos⌋ : ℚ)
    if samples.length ≤ idx + 1 then samples.getD (min idx (samples.length - 1)) 0
    else
      let a : ℚ := roundF64 ((samples.getD idx 0 : ℤ) : ℚ)
      let b : ℚ := roundF64 ((samples.getD (idx + 1) 0 : ℤ) : ℚ)
      rustCastI16 (fadd a (fmul (fsub b a) frac))

end Transmit

namespace Analyzer

/-- Extended dB value. The source stores dB levels as `f64`; the only
non-finite value it produces is `f64::NEG_INFINITY` (zero signal). A finite
level `20 * log10 r` is represented as `ratioSq q` with `q = r ^ 2` the squared
amplitude ratio: the map `q ↦ 10 * log10 q` is strictly monotone on positives,
so every comparison the source makes translates directly. The f64 literal
`-50.0` dB corresponds to `ratioSq (1/100000)` and the literal `0.0` dB
(the f64 `Default`) to `ratioSq 1`. -/
inductive Db where
  | negInf
  | ratioSq (q : ℚ)
deriving DecidableEq, Repr

/-- `f64` `<` through the monotone encoding (`-inf` below every finite). -/
def Db.blt : Db → Db → Bool
  | .negInf, .negInf => false
  | .negInf, .ratioSq _ => true
  | .ratioSq _, .negInf => false
  | .ratioSq a, .ratioSq b => decide (a < b)

/-- `f64::is_finite` (the model produces no NaN or `+inf`). -/
def Db.isFinite : Db → Bool
  | .negInf => false
  | .ratioSq _ => true

/-- Payload entering the running sum `rms_sum += rms_db` for finite values.
Sums of dB values are transcendental in general, so the model accumulates the
encoded values; the claims only concern whether the accumulator is touched. -/
def Db.val : Db → ℚ
  | .negInf => 0
  | .ratioSq q => q

/-- `GLITCH_THRESHOLD` (src/cli/audio_analyzer.rs). -/
def GLITCH_THRESHOLD : Int := 20000

/-- `SILENCE_THRESHOLD_DB = -50.0` dB in the `Db` encoding. -/
def SILENCE_THRESHOLD_DB : Db := .ratioSq (1 / 100000)

/-- `CLIPPING_THRESHOLD` (src/cli/audio_analyzer.rs). -/
def CLIPPING_THRESHOLD : Int := 32600

/-- `FFT_SIZE` (src/cli/audio_analyzer.rs). -/
def FFT_SIZE : Nat := 512

/-- `FREQ_BIN_WIDTH_HZ` (src/cli/audio_analyzer.rs). -/
def FREQ_BIN_WIDTH_HZ : ℚ := 50

/-- `AudioAnalysis` (src/cli/audio_analyzer.rs): dB fields in the `Db`
encoding, the other f64 fields as exact rationals. -/
structure AudioAnalysis where
  rms_db : Db
  peak_db : Db
  dominant_freq_hz : ℚ
  clipped_samples : Nat
  glitch_count : Nat
  zero_crossing_rate : ℚ
  dc_offset_percent : ℚ
  repeated_samples : Nat
  is_silence : Bool
deriving DecidableEq, Repr

/-- `AudioAnalysis::default()`: every numeric f64 field is `0.0` — for the
dB fields that is the finite level 0 dB, i.e. `ratioSq 1`, not `-inf`. -/
def AudioAnalysis.default : AudioAnalysis :=
  ⟨.ratioSq 1, .ratioSq 1, 0, 0, 0, 0, 0, 0, false⟩

/-- `AudioAnalyzer` (src/cli/audio_analyzer.rs). The FFT planner, scratch and
Hann window only serve `compute_dominant_frequency`, which the model takes as
an oracle parameter of `analyze`; the cross-call state is `last_sample` and
the sliding `sample_buffer`. -/
structure AudioAnalyzer where
  sampleRate : Nat
  lastSample : Option Int
  glitchThreshold : Int
  silenceThresholdDb : Db
  sampleBuffer : List Int
deriving DecidableEq, Repr

/-- `AudioAnalyzer::new` (src/cli/audio_analyzer.rs). -/
def AudioAnalyzer.new (sampleRate : Nat) : AudioAnalyzer :=
  ⟨sampleRate, none, GLITCH_THRESHOLD, SILENCE_THRESHOLD_DB, []⟩

/-- `i16::saturating_abs`. -/
def satAbs (s : Int) : Int := min |s| 32767

/-- State of the single-pass loop in `AudioAnalyzer::analyze`. -/
structure PassState where
  sumSquares : ℚ
  peak : Int
  clipped : Nat
  zeroCrossings : Nat
  glitches : Nat
  repeated : Nat
  dcSum : Int
  prevSample : Int
deriving DecidableEq, Repr

/-- One iteration of the sample loop in `AudioAnalyzer::analyze`
(src/cli/audio_analyzer.rs). -/
def passStep (glitchThreshold : Int) (st : PassState) (sample : Int) : PassState :=
  let absSample := satAbs sample
  { sumSquares := st.sumSquares + (sample : ℚ) ^ 2
    peak := if st.peak < absSample then absSample else st.peak
    clipped := if CLIPPING_THRESHOLD ≤ absSample then st.clipped + 1 else st.clipped
    zeroCrossings :=
      if (0 ≤ st.prevSample ∧ sample < 0) ∨ (st.prevSample < 0 ∧ 0 ≤ sample)
        then st.zeroCrossings + 1 else st.zeroCrossings
    glitches := if glitchThreshold < |sample - st.prevSample| then st.glitches + 1
      else st.glitches
    repeated := if sample = st.prevSample then st.repeated + 1 else st.repeated
    dcSum := st.dcSum + sample
    prevSample := sample }

/-- `AudioAnalyzer::analyze` (src/cli/audio_analyzer.rs). `fftFreq` is the
oracle for `compute_dominant_frequency` (floating-point FFT). The source
computes `rms = sqrt(sum_squares / n)` and only ever tests `rms > 0.0` and
compares `rms_db`; both are determined by `rms² = sum_squares / n`, which the
model carries exactly. -/
def analyze (fftFreq : List Int → ℚ) (a : AudioAnalyzer) (samples : List Int) :
    AudioAnalysis × AudioAnalyzer :=
  match samples with
  | [] => (AudioAnalysis.default, a)
  | s0 :: _ =>
    let prev0 := a.lastSample.getD s0
    let st := samples.foldl (passStep a.glitchThreshold) ⟨0, 0, 0, 0, 0, 0, 0, prev0⟩
    let n : ℚ := samples.length
    let rmsSq : ℚ := st.sumSquares / n
    let rms_db : Db := if 0 < rmsSq then .ratioSq (rmsSq / 32768 ^ 2) else .negInf
    let peak_db : Db := if 0 < st.peak then .ratioSq (((st.peak : ℚ) / 32768) ^ 2)
      else .negInf
    let durationSecs : ℚ := n / (a.sampleRate : ℚ)
    let zcr : ℚ := (st.zeroCrossings : ℚ) / durationSecs
    let dcOffset : ℚ := (st.dcSum : ℚ) / n
    let dcPercent : ℚ := 100 * dcOffset / 32768
    let isSilence : Bool := Db.blt rms_db a.silenceThresholdDb
    let buffer := a.sampleBuffer ++ samples
    if FFT_SIZE ≤ buffer.length then
      let start := buffer.length - FFT_SIZE
      let fftSamples := buffer.drop start
      (⟨rms_db, peak_db, fftFreq fftSamples, st.clipped, st.glitches, zcr, dcPercent,
          st.repeated, isSilence⟩,
        { a with lastSample := some st.prevSample, sampleBuffer := buffer.drop start })
    else
      (⟨rms_db, peak_db, 0, st.clipped, st.glitches, zcr, dcPercent, st.repeated,
          isSilence⟩,
        { a with lastSample := some st.prevSample, sampleBuffer := buffer })

/-- `AudioStats` (src/cli/audio_analyzer.rs). `rms_sum` and `avg_rms_db` hold
sums/means in the encoded domain (see `Db.val`); the `HashMap` histogram is
an association list. -/
structure AudioStats where
  peak_rms_db : Db
  avg_rms_db : Db
  max_peak_db : Db
  total_clipped : Nat
  total_glitches : Nat
  avg_zero_crossing_rate : ℚ
  avg_dc_offset_percent : ℚ
  total_repeated : Nat
  dominant_freq_hz : ℚ
  total_samples : Nat
  frame_count : Nat
  silent_frames : Nat
  rms_sum : ℚ
  rms_count : Nat
  zcr_sum : ℚ
  dc_sum : ℚ
  freq_bins : List (Int × Nat)
deriving DecidableEq, Repr

/-- `AudioStats::new` (src/cli/audio_analyzer.rs): peaks start at `-inf`,
everything else at the f64/int default (0.0 dB is `ratioSq 1`). -/
def AudioStats.new : AudioStats :=
  ⟨.negInf, .ratioSq 1, .negInf, 0, 0, 0, 0, 0, 0, 0, 0, 0, 0, 0, 0, 0, []⟩

/-- `*self.freq_bins.entry(bin).or_insert(0) += 1` on the association-list
model of the `HashMap`. -/
def binsIncr : List (Int × Nat) → Int → List (Int × Nat)
  | [], b => [(b, 1)]
  | (k, v) :: rest, b =>
    if k = b then (k, v + 1) :: rest else (k, v) :: binsIncr rest b

/-- `max_by_key` over the histogram; `HashMap` iteration order is
unspecified, so ties resolve arbitrarily (here: later entries win ties, as
with `Iterator::max_by_key`). -/
def binsArgmax : List (Int × Nat) → Option (Int × Nat)
  | [] => none
  | (k, v) :: rest =>
    match binsArgmax rest with
    | none => some (k, v)
    | some (k', v') => if v' < v then some (k, v) else some (k', v')

/-- Peak tracking of `AudioStats::update` (src/cli/audio_analyzer.rs):
`if analysis.rms_db > self.peak_rms_db { ... }` and likewise for `peak_db`. -/
def updatePeaks (stats : AudioStats) (analysis : AudioAnalysis) : AudioStats :=
  let stats := if Db.blt stats.peak_rms_db analysis.rms_db
    then { stats with peak_rms_db := analysis.rms_db } else stats
  if Db.blt stats.max_peak_db analysis.peak_db
    then { stats with max_peak_db := analysis.peak_db } else stats

/-- RMS mean accumulation of `AudioStats::update`: finite values only. -/
def updateRmsAcc (stats : AudioStats) (analysis : AudioAnalysis) : AudioStats :=
  if analysis.rms_db.isFinite
    then { stats with
      rms_sum := stats.rms_sum + analysis.rms_db.val
      rms_count := stats.rms_count + 1 }
    else stats

/-- Totals accumulation of `AudioStats::update`. -/
def updateTotals (stats : AudioStats) (analysis : AudioAnalysis) : AudioStats :=
  { stats with
    zcr_sum := stats.zcr_sum + analysis.zero_crossing_rate
    dc_sum := stats.dc_sum + analysis.dc_offset_percent
    total_clipped := stats.total_clipped + analysis.clipped_samples
    total_glitches := stats.total_glitches + analysis.glitch_count
    total_repeated := stats.total_repeated + analysis.repeated_samples }

/-- Silent-frame counting of `AudioStats::update`. -/
def updateSilent (stats : AudioStats) (analysis : AudioAnalysis) : AudioStats :=
  if analysis.is_silence
    then { stats with silent_frames := stats.silent_frames + 1 } else stats

/-- Dominant-frequency histogram step of `AudioStats::update`:
`bin = (freq / 50.0) as i32`, entry incremented. -/
def updateFreqBins (stats : AudioStats) (analysis : AudioAnalysis) : AudioStats :=
  if 0 < analysis.dominant_freq_hz
    then
      let bin := Transmit.rustTrunc (analysis.dominant_freq_hz / FREQ_BIN_WIDTH_HZ)
      { stats with freq_bins := binsIncr stats.freq_bins bin }
    else stats

/-- Running-average recomputation of `AudioStats::update`. -/
def updateAverages (stats : AudioStats) : AudioStats :=
  { stats with
    avg_rms_db := if 0 < stats.rms_count
      then Db.ratioSq (stats.rms_sum / (stats.rms_count : ℚ)) else .negInf
    avg_zero_crossing_rate := stats.zcr_sum / (stats.frame_count : ℚ)
    avg_dc_offset_percent := stats.dc_sum / (stats.frame_count : ℚ) }

/-- Histogram-argmax step of `AudioStats::update`: bin centre of the most
common dominant frequency. -/
def updateDominant (stats : AudioStats) : AudioStats :=
  match binsArgmax stats.freq_bins with
  | some (bin, _) =>
    { stats with dominant_freq_hz := ((bin : ℚ) + 1 / 2) * FREQ_BIN_WIDTH_HZ }
  | none => stats

/-- Frame/sample counting of `AudioStats::update` (src/cli/audio_analyzer.rs). -/
def updateCounts (stats : AudioStats) (sampleCount : Nat) : AudioStats :=
  { stats with
    frame_count := stats.frame_count + 1
    total_samples := stats.total_samples + sampleCount }

/-- `AudioStats::update` (src/cli/audio_analyzer.rs), as the composition of
its stages in source order. -/
def AudioStats.update (stats : AudioStats) (analysis : AudioAnalysis)
    (sampleCount : Nat) : AudioStats :=
  let stats := updateCounts stats sampleCount
  let stats := updatePeaks stats analysis
  let stats := updateRmsAcc stats analysis
  let stats := updateTotals stats analysis
  let stats := updateSilent stats analysis
  let stats := updateFreqBins stats analysis
  updateDominant (updateAverages stats)

end Analyzer

namespace G711

lemma ulawExponent_eq0 (s : Nat) (h2 : s < 256) : ulawExponent s = 0 := by
  unfold ulawExponent
  rw [if_pos (by omega), if_pos (by omega), if_pos (by omega), if_pos (by omega),
    if_pos (by omega), if_pos (by omega), if_pos (by omega)]

lemma ulawExponent_eq1 (s : Nat) (h1 : 256 ≤ s) (h2 : s < 512) : ulawExponent s = 1 := by
  unfold ulawExponent
  rw [if_pos (by omega), if_pos (by omega), if_pos (by omega), if_pos (by omega),
    if_pos (by omega), if_pos (by omega), if_neg (by omega)]

lemma ulawExponent_eq2 (s : Nat) (h1 : 512 ≤ s) (h2 : s < 1024) : ulawExponent s = 2 := by
  unfold ulawExponent
  rw [if_pos (by omega), if_pos (by omega), if_pos (by omega), if_pos (by omega),
    if_pos (by omega), if_neg (by omega)]

lemma ulawExponent_eq3 (s : Nat) (h1 : 1024 ≤ s) (h2 : s < 2048) : ulawExponent s = 3 := by
  unfold ulawExponent
  rw [if_pos (by omega), if_pos (by omega), if_pos (by omega), if_pos (by omega),
    if_neg (by omega)]

lemma ulawExponent_eq4 (s : Nat) (h1 : 2048 ≤ s) (h2 : s < 4096) : ulawExponent s = 4 := by
  unfold ulawExponent
  rw [if_pos (by omega), if_pos (by omega), if_pos (by omega), if_neg (by omega)]

lemma ulawExponent_eq5 (s : Nat) (h1 : 4096 ≤ s) (h2 : s < 8192) : ulawExponent s = 5 := by
  unfold ulawExponent
  rw [if_pos (by omega), if_pos (by omega), if_neg (by omega)]

lemma ulawExponent_eq6 (s : Nat) (h1 : 8192 ≤ s) (h2 : s < 16384) : ulawExponent s = 6 := by
  unfold ulawExponent
  rw [if_pos (by omega), if_neg (by omega)]

lemma ulawExponent_eq7 (s : Nat) (h1 : 16384 ≤ s) (h2 : s < 32768) : ulawExponent s = 7 := by
  unfold ulawExponent
  rw [if_neg (by omega)]

lemma ulawDecode_byte (sgn e m : Nat) (hsgn : sgn = 0 ∨ sgn = 128) (he : e < 8)
    (hm : m < 16) :
    ulawDecode (255 - (sgn + e * 16 + m)) =
      (if sgn = 128 then -1 else 1) * (((m * 2 + 33) * 2 ^ (e + 2) : Int) - 132) := by
  unfold ulawDecode
  have h1 : (255 - (sgn + e * 16 + m)) % 256 = 255 - (sgn + e * 16 + m) :=
    Nat.mod_eq_of_lt (by omega)
  rw [h1]
  have h2 : 255 - (255 - (sgn + e * 16 + m)) = sgn + e * 16 + m := by omega
  rw [h2]
  dsimp only
  have h3 : (sgn + e * 16 + m) / 16 % 8 = e := by omega
  have h4 : (sgn + e * 16 + m) % 16 = m := by omega
  rw [h3, h4]
  rcases hsgn with h | h <;> subst h
  · rw [if_neg (by simp only [decide_eq_true_eq]; omega : ¬ (decide (128 ≤ 0 + e * 16 + m) = true))]
    rw [if_neg (by omega : ¬ (0 : Nat) = 128)]
    push_cast
    ring
  · rw [if_pos (by simp only [decide_eq_true_eq]; omega : decide (128 ≤ 128 + e * 16 + m) = true)]
    rw [if_pos rfl]
    push_cast
    ring

/-- C1, u-law half. -/
theorem ulaw_roundtrip_bound (s : Int) (h1 : -32768 ≤ s) (h2 : s ≤ 32767) :
    (ulawDecode (ulawEncode s) - s).natAbs < 1000 := by
  have hEnc : ulawEncode s = 255 - ((if s < 0 then 128 else 0)
      + ulawExponent (min s.natAbs 32635 + 132) * 16
      + (min s.natAbs 32635 + 132) / 2 ^ (ulawExponent (min s.natAbs 32635 + 132) + 3) % 16) := rfl
  set a : Nat := min s.natAbs 32635 with ha
  have haLe : a ≤ 32635 := min_le_right _ _
  have hmin : (s.natAbs ≤ 32635 ∧ a = s.natAbs) ∨ (32635 < s.natAbs ∧ a = 32635) := by
    rcases le_or_lt s.natAbs 32635 with h | h
    · exact Or.inl ⟨h, by rw [ha]; omega⟩
    · exact Or.inr ⟨h, by rw [ha]; omega⟩
  clear ha haLe
  have hsgn : (if s < 0 then (128 : Nat) else 0) = 0 ∨ (if s < 0 then (128 : Nat) else 0) = 128 := by
    split <;> simp
  by_cases hc0 : a + 132 < 256
  · rw [ulawExponent_eq0 _ hc0] at hEnc
    rw [hEnc, ulawDecode_byte _ 0 _ hsgn (by omega) (Nat.mod_lt _ (by norm_num))]
    split_ifs at * <;> omega
  by_cases hc1 : a + 132 < 512
  · rw [ulawExponent_eq1 _ (by omega) hc1] at hEnc
    rw [hEnc, ulawDecode_byte _ 1 _ hsgn (by omega) (Nat.mod_lt _ (by norm_num))]
    split_ifs at * <;> omega
  by_cases hc2 : a + 132 < 1024
  · rw [ulawExponent_eq2 _ (by omega) hc2] at hEnc
    rw [hEnc, ulawDecode_byte _ 2 _ hsgn (by omega) (Nat.mod_lt _ (by norm_num))]
    split_ifs at * <;> omega
  by_cases hc3 : a + 132 < 2048
  · rw [ulawExponent_eq3 _ (by omega) hc3] at hEnc
    rw [hEnc, ulawDecode_byte _ 3 _ hsgn (by omega) (Nat.mod_lt _ (by norm_num))]
    split_ifs at * <;> omega
  by_cases hc4 : a + 132 < 4096
  · rw [ulawExponent_eq4 _ (by omega) hc4] at hEnc
    rw [hEnc, ulawDecode_byte _ 4 _ hsgn (by omega) (Nat.mod_lt _ (by norm_num))]
    split_ifs at * <;> omega
  by_cases hc5 : a + 132 < 8192
  · rw [ulawExponent_eq5 _ (by omega) hc5] at hEnc
    rw [hEnc, ulawDecode_byte _ 5 _ hsgn (by omega) (Nat.mod_lt _ (by norm_num))]
    split_ifs at * <;> omega
  by_cases hc6 : a + 132 < 16384
  · rw [ulawExponent_eq6 _ (by omega) hc6] at hEnc
    rw [hEnc, ulawDecode_byte _ 6 _ hsgn (by omega) (Nat.mod_lt _ (by norm_num))]
    split_ifs at * <;> omega
  · rw [ulawExponent_eq7 _ (by omega) (by omega)] at hEnc
    rw [hEnc, ulawDecode_byte _ 7 _ hsgn (by omega) (Nat.mod_lt _ (by norm_num))]
    split_ifs at * <;> omega

lemma alawExponent_eq1 (s : Nat) (h2 : s < 64) : alawExponent s = 1 := by
  unfold alawExponent
  rw [if_neg (by omega)]

lemma alawExponent_eq2 (s : Nat) (h1 : 64 ≤ s) (h2 : s < 128) : alawExponent s = 2 := by
  unfold alawExponent
  rw [if_pos (by omega), if_neg (by omega)]

lemma alawExponent_eq3 (s : Nat) (h1 : 128 ≤ s) (h2 : s < 256) : alawExponent s = 3 := by
  unfold alawExponent
  rw [if_pos (by omega), if_pos (by omega), if_neg (by omega)]

lemma alawExponent_eq4 (s : Nat) (h1 : 256 ≤ s) (h2 : s < 512) : alawExponent s = 4 := by
  unfold alawExponent
  rw [if_pos (by omega), if_pos (by omega), if_pos (by omega), if_neg (by omega)]

lemma alawExponent_eq5 (s : Nat) (h1 : 512 ≤ s) (h2 : s < 1024) : alawExponent s = 5 := by
  unfold alawExponent
  rw [if_pos (by omega), if_pos (by omega), if_pos (by omega), if_pos (by omega),
    if_neg (by omega)]

lemma alawExponent_eq6 (s : Nat) (h1 : 1024 ≤ s) (h2 : s < 2048) : alawExponent s = 6 := by
  unfold alawExponent
  rw [if_pos (by omega), if_pos (by omega), if_pos (by omega), if_pos (by omega),
    if_pos (by omega), if_neg (by omega)]

lemma alawExponent_eq7 (s : Nat) (h1 : 2048 ≤ s) : alawExponent s = 7 := by
  unfold alawExponent
  rw [if_pos (by omega), if_pos (by omega), if_pos (by omega), if_pos (by omega),
    if_pos (by omega), if_pos (by omega)]

lemma alaw_field_xor : ∀ a < 8, ∀ b < 16,
    (16 * a + b) ^^^ 85 = 16 * (a ^^^ 5) + (b ^^^ 5) ∧
    (128 + 16 * a + b) ^^^ 85 = 128 + 16 * (a ^^^ 5) + (b ^^^ 5) := by decide

lemma xor5_lt8 : ∀ a < 8, a ^^^ 5 < 8 := by decide

lemma xor5_lt16 : ∀ b < 16, b ^^^ 5 < 16 := by decide

lemma xor5_invol8 : ∀ a < 8, (a ^^^ 5) ^^^ 5 = a := by decide

lemma xor5_invol16 : ∀ b < 16, (b ^^^ 5) ^^^ 5 = b := by decide

lemma alawDecode_byte (sgn e m : Nat) (hsgn : sgn = 0 ∨ sgn = 128) (he : e < 8)
    (hm : m < 16) :
    alawDecode (sgn + 16 * (e ^^^ 5) + (m ^^^ 5)) =
      (if sgn = 128 then -1 else 1) *
        ((if e = 0 then m * 2 + 1 else (m * 2 + 33) * 2 ^ (e - 1)) * 8 : Int) := by
  have hE5 : e ^^^ 5 < 8 := xor5_lt8 e he
  have hM5 : m ^^^ 5 < 16 := xor5_lt16 m hm
  unfold alawDecode
  rw [Nat.mod_eq_of_lt (by omega : sgn + 16 * (e ^^^ 5) + (m ^^^ 5) < 256)]
  have hx : (sgn + 16 * (e ^^^ 5) + (m ^^^ 5)) ^^^ 85 = sgn + 16 * e + m := by
    rcases hsgn with h | h <;> subst h
    · have hf := (alaw_field_xor (e ^^^ 5) hE5 (m ^^^ 5) hM5).1
      rw [show (0 : Nat) + 16 * (e ^^^ 5) + (m ^^^ 5) = 16 * (e ^^^ 5) + (m ^^^ 5) by omega,
        hf, xor5_invol8 e he, xor5_invol16 m hm]
      omega
    · have hf := (alaw_field_xor (e ^^^ 5) hE5 (m ^^^ 5) hM5).2
      rw [hf, xor5_invol8 e he, xor5_invol16 m hm]
  rw [hx]
  dsimp only
  have h3 : (sgn + 16 * e + m) / 16 % 8 = e := by omega
  have h4 : (sgn + 16 * e + m) % 16 = m := by omega
  rw [h3, h4]
  rcases hsgn with h | h <;> subst h
  · rw [if_neg (by simp only [decide_eq_true_eq]; omega :
      ¬ (decide (128 ≤ 0 + 16 * e + m) = true))]
    rw [if_neg (by omega : ¬ (0 : Nat) = 128)]
    split_ifs <;> push_cast <;> ring
  · rw [if_pos (by simp only [decide_eq_true_eq]; omega :
      decide (128 ≤ 128 + 16 * e + m) = true)]
    rw [if_pos rfl]
    split_ifs <;> push_cast <;> ring

/-- C1, A-law half. -/
theorem alaw_roundtrip_bound (s : Int) (h1 : -32768 ≤ s) (h2 : s ≤ 32767) :
    (alawDecode (alawEncode s) - s).natAbs < 1000 := by
  have hEnc : alawEncode s = (if s < 0 then 128 else 0)
      + 16 * ((if min s.natAbs 32767 / 8 < 32 then 0 else alawExponent (min s.natAbs 32767 / 8)) ^^^ 5)
      + ((if min s.natAbs 32767 / 8 < 32 then min s.natAbs 32767 / 8 / 2
          else min s.natAbs 32767 / 8 / 2
            ^ (if min s.natAbs 32767 / 8 < 32 then 0 else alawExponent (min s.natAbs 32767 / 8)) % 16)
          ^^^ 5) := rfl
  set a : Nat := min s.natAbs 32767 with ha
  have hmin : (s.natAbs ≤ 32767 ∧ a = s.natAbs) ∨ (s.natAbs = 32768 ∧ a = 32767) := by
    rcases le_or_lt s.natAbs 32767 with h | h
    · exact Or.inl ⟨h, by rw [ha]; omega⟩
    · exact Or.inr ⟨by omega, by rw [ha]; omega⟩
  clear ha
  set q : Nat := a / 8 with hq
  have hqa : q = a / 8 := hq
  clear hq
  have hsgn : (if s < 0 then (128 : Nat) else 0) = 0 ∨ (if s < 0 then (128 : Nat) else 0) = 128 := by
    split <;> simp
  by_cases hc0 : q < 32
  · simp only [if_pos hc0] at hEnc
    rw [hEnc, alawDecode_byte _ 0 _ hsgn (by omega) (by omega)]
    split_ifs at * <;> omega
  simp only [if_neg hc0] at hEnc
  by_cases hc1 : q < 64
  · rw [alawExponent_eq1 _ hc1] at hEnc
    rw [hEnc, alawDecode_byte _ 1 _ hsgn (by omega) (Nat.mod_lt _ (by norm_num))]
    split_ifs at * <;> omega
  by_cases hc2 : q < 128
  · rw [alawExponent_eq2 _ (by omega) hc2] at hEnc
    rw [hEnc, alawDecode_byte _ 2 _ hsgn (by omega) (Nat.mod_lt _ (by norm_num))]
    split_ifs at * <;> omega
  by_cases hc3 : q < 256
  · rw [alawExponent_eq3 _ (by omega) hc3] at hEnc
    rw [hEnc, alawDecode_byte _ 3 _ hsgn (by omega) (Nat.mod_lt _ (by norm_num))]
    split_ifs at * <;> omega
  by_cases hc4 : q < 512
  · rw [alawExponent_eq4 _ (by omega) hc4] at hEnc
    rw [hEnc, alawDecode_byte _ 4 _ hsgn (by omega) (Nat.mod_lt _ (by norm_num))]
    split_ifs at * <;> omega
  by_cases hc5 : q < 1024
  · rw [alawExponent_eq5 _ (by omega) hc5] at hEnc
    rw [hEnc, alawDecode_byte _ 5 _ hsgn (by omega) (Nat.mod_lt _ (by norm_num))]
    split_ifs at * <;> omega
  by_cases hc6 : q < 2048
  · rw [alawExponent_eq6 _ (by omega) hc6] at hEnc
    rw [hEnc, alawDecode_byte _ 6 _ hsgn (by omega) (Nat.mod_lt _ (by norm_num))]
    split_ifs at * <;> omega
  · rw [alawExponent_eq7 _ (by omega)] at hEnc
    rw [hEnc, alawDecode_byte _ 7 _ hsgn (by omega) (Nat.mod_lt _ (by norm_num))]
    split_ifs at * <;> omega

/-- C1: for every 16-bit sample and both G.711 laws, the encode/decode
round-trip error is below 1000; the encoder handles -32768 (the model's Int
arithmetic matches the source's i32-widened `abs`, so no overflow occurs). -/
theorem C1_g711_roundtrip_error (s : Int) (h1 : -32768 ≤ s) (h2 : s ≤ 32767) :
    (ulawDecode (ulawEncode s) - s).natAbs < 1000 ∧
      (alawDecode (alawEncode s) - s).natAbs < 1000 :=
  ⟨ulaw_roundtrip_bound s h1 h2, alaw_roundtrip_bound s h1 h2⟩

/-- Witness for C1 at s = -32768. -/
theorem C1_witness :
    (ulawDecode (ulawEncode (-32768)) - (-32768)).natAbs < 1000 ∧
      (alawDecode (alawEncode (-32768)) - (-32768)).natAbs < 1000 :=
  C1_g711_roundtrip_error (-32768) (by norm_num) (by norm_num)

end G711

namespace Codec

lemma i16_roundtrip (s : Int) (h1 : -32768 ≤ s) (h2 : s ≤ 32767) :
    i16FromBeBytes ((s % 65536).toNat / 256) ((s % 65536).toNat % 256) = s := by
  unfold i16FromBeBytes
  dsimp only
  split_ifs <;> omega

lemma l16_bind_length (samples : List Int) :
    (samples.flatMap i16ToBeBytes).length = 2 * samples.length := by
  induction samples with
  | nil => simp
  | cons s ss ih => simp [i16ToBeBytes, ih]; omega

lemma l16DecodePairs_bind (samples : List Int)
    (hr : ∀ x ∈ samples, -32768 ≤ x ∧ x ≤ 32767) :
    l16DecodePairs (samples.flatMap i16ToBeBytes) = samples := by
  induction samples with
  | nil => simp [l16DecodePairs]
  | cons s ss ih =>
    have hs := hr s (by simp)
    have hss : ∀ x ∈ ss, -32768 ≤ x ∧ x ≤ 32767 := fun x hx => hr x (by simp [hx])
    simp only [List.flatMap_cons]
    show l16DecodePairs ((s % 65536).toNat / 256 :: (s % 65536).toNat % 256
      :: ss.flatMap i16ToBeBytes) = s :: ss
    rw [l16DecodePairs, i16_roundtrip s hs.1 hs.2, ih hss]

/-- C8: L16 decode of L16 encode returns the original samples; decoding any
odd-length input fails with `InvalidFrame`. -/
theorem C8_l16_roundtrip_and_odd_reject (samples : List Int) (bytes : List Nat)
    (hr : ∀ x ∈ samples, -32768 ≤ x ∧ x ≤ 32767)
    (hodd : bytes.length % 2 = 1) :
    (l16Encode samples).bind l16Decode = .ok samples ∧
      l16Decode bytes = .error (.invalidFrame "L16 data must have even number of bytes") := by
  constructor
  · show l16Decode (samples.flatMap i16ToBeBytes) = .ok samples
    unfold l16Decode
    rw [if_neg (by rw [l16_bind_length]; omega)]
    rw [l16DecodePairs_bind samples hr]
  · unfold l16Decode
    rw [if_pos (by omega)]

/-- Witness for C8 at concrete inputs. -/
theorem C8_witness :
    (l16Encode [1, -32768, 32767]).bind l16Decode = .ok [1, -32768, 32767] ∧
      l16Decode [0] = .error (.invalidFrame "L16 data must have even number of bytes") :=
  C8_l16_roundtrip_and_odd_reject [1, -32768, 32767] [0] (by decide) (by decide)

end Codec

namespace Rtp

lemma lor_low : ∀ pt < 128, 0 ||| (pt &&& 127) = pt := by decide

lemma lor_high : ∀ pt < 128, 128 ||| (pt &&& 127) = 128 + pt := by decide

lemma sndByte_low : ∀ pt < 128, ((pt >>> 7) &&& 1 = 0) ∧ (pt &&& 127 = pt) := by decide

lemma sndByte_high : ∀ pt < 128, (((128 + pt) >>> 7) &&& 1 = 1) ∧ ((128 + pt) &&& 127 = pt) := by
  decide

/-- C2: parse of build recovers the packet: version 2, no padding, no
extension, no CSRC, equal marker/payload type/sequence/timestamp/SSRC and
payload. -/
theorem C2_rtp_build_parse_roundtrip (pt seq ts ssrc : Nat) (marker : Bool)
    (payload : List Nat) (hpt : pt < 128) (hseq : seq < 2 ^ 16) (hts : ts < 2 ^ 32)
    (hssrc : ssrc < 2 ^ 32) :
    parse (build pt seq ts ssrc payload marker) =
      .ok ⟨⟨2, false, false, 0, marker, pt, seq, ts, ssrc, []⟩, payload⟩ := by
  have hdata : build pt seq ts ssrc payload marker =
      0x80 :: ((if marker then 0x80 else 0x00) ||| (pt &&& 0x7F))
        :: (seq / 2 ^ 8 % 256) :: (seq % 256)
        :: (ts / 2 ^ 24 % 256) :: (ts / 2 ^ 16 % 256) :: (ts / 2 ^ 8 % 256) :: (ts % 256)
        :: (ssrc / 2 ^ 24 % 256) :: (ssrc / 2 ^ 16 % 256) :: (ssrc / 2 ^ 8 % 256) :: (ssrc % 256)
        :: payload := by
    simp [build, u16beBytes, u32beBytes]
  have hseq' : u16be (seq / 2 ^ 8 % 256) (seq % 256) = seq := by unfold u16be; omega
  have hts' : u32be (ts / 2 ^ 24 % 256) (ts / 2 ^ 16 % 256) (ts / 2 ^ 8 % 256) (ts % 256)
      = ts := by unfold u32be; omega
  have hssrc' : u32be (ssrc / 2 ^ 24 % 256) (ssrc / 2 ^ 16 % 256) (ssrc / 2 ^ 8 % 256)
      (ssrc % 256) = ssrc := by unfold u32be; omega
  rw [hdata]
  simp only [parse]
  rw [if_neg (by decide : ¬ ((128 : Nat) >>> 6 &&& 3 ≠ 2))]
  rw [if_neg (by simp only [List.length_cons]; rw [show (128 : Nat) &&& 15 = 0 from rfl]; omega)]
  rw [if_neg (by decide : ¬ ((((128 : Nat) >>> 4) &&& 1) != 0) = true)]
  unfold parseFinish
  rw [if_neg (by decide : ¬ ((((128 : Nat) >>> 5) &&& 1) != 0) = true)]
  rw [List.take_length]
  cases marker
  · have hm := (sndByte_low pt hpt).1
    have hp := (sndByte_low pt hpt).2
    simp only [Bool.false_eq_true, if_false, lor_low pt hpt, hm, hp, hseq', hts', hssrc']
    rw [show ((128 : Nat) >>> 6) &&& 3 = 2 from rfl, show (128 : Nat) &&& 15 = 0 from rfl]
    simp only [List.range_zero, List.map_nil]
    norm_num
    exact ⟨by decide, by decide, by simpa [Nat.and_one_is_mod] using hm, hp⟩
  · have hm := (sndByte_high pt hpt).1
    have hp := (sndByte_high pt hpt).2
    simp only [if_true, lor_high pt hpt, hm, hp, hseq', hts', hssrc']
    rw [show ((128 : Nat) >>> 6) &&& 3 = 2 from rfl, show (128 : Nat) &&& 15 = 0 from rfl]
    simp only [List.range_zero, List.map_nil]
    norm_num
    decide

/-- Witness for C2 at concrete inputs. -/
theorem C2_witness :
    parse (build 8 100 16000 0xABCDEF00 [1, 2, 3] true) =
      .ok ⟨⟨2, false, false, 0, true, 8, 100, 16000, 0xABCDEF00, []⟩, [1, 2, 3]⟩ :=
  C2_rtp_build_parse_roundtrip 8 100 16000 0xABCDEF00 true [1, 2, 3]
    (by norm_num) (by norm_num) (by norm_num) (by norm_num)

end Rtp

namespace Polycom

lemma takeWhile_append_zeros (l : List Nat) (k : Nat) (h : ∀ x ∈ l, x ≠ 0) :
    (l ++ List.replicate k 0).takeWhile (fun b => b != 0) = l := by
  induction l with
  | nil =>
    cases k with
    | zero => simp
    | succ n => simp [List.replicate_succ, List.takeWhile]
  | cons x xs ih =>
    have hx : x ≠ 0 := h x (by simp)
    have hxs : ∀ y ∈ xs, y ≠ 0 := fun y hy => h y (by simp [hy])
    simp only [List.cons_append, List.takeWhile]
    rw [show (x != 0) = true by simpa using hx]
    simp [ih hxs]

lemma fromOpCode_toOpCode (pt : PacketType) :
    PacketType.fromOpCode pt.toOpCode = some pt := by
  cases pt <;> rfl

lemma parse_cons (pt : PacketType) (ch s1 s2 s3 s4 L : Nat) (rest : List Nat)
    (hch1 : 1 ≤ ch) (hch2 : ch ≤ 50) (hL : rest.length = L) (hLpos : 0 < L) :
    PolycomHeader.parse (pt.toOpCode :: ch :: s1 :: s2 :: s3 :: s4 :: L :: rest) =
      .ok (⟨pt, ch, (s1, s2, s3, s4), rest.takeWhile (fun b => b != 0)⟩, 7 + L) := by
  set data := pt.toOpCode :: ch :: s1 :: s2 :: s3 :: s4 :: L :: rest with hdata
  have hlen : data.length = 7 + L := by
    rw [hdata]
    simp only [List.length_cons, hL]
    omega
  have g0 : data.getD 0 0 = pt.toOpCode := rfl
  have g1 : data.getD 1 0 = ch := rfl
  have g2 : data.getD 2 0 = s1 := rfl
  have g3 : data.getD 3 0 = s2 := rfl
  have g4 : data.getD 4 0 = s3 := rfl
  have g5 : data.getD 5 0 = s4 := rfl
  have g6 : data.getD 6 0 = L := rfl
  have htd : (data.take (7 + L)).drop 7 = rest := by
    rw [← hlen, List.take_length, hdata]
    rfl
  unfold PolycomHeader.parse
  rw [if_neg (by omega)]
  rw [g0]
  dsimp only
  rw [fromOpCode_toOpCode]
  dsimp only
  simp only [g1, g2, g3, g4, g5, g6]
  rw [if_neg (by omega : ¬ (ch = 0 ∨ 50 < ch))]
  rw [if_neg (by omega : ¬ (data.length < 7 + L))]
  rw [if_pos hLpos, htd]

lemma encode_eq (pt : PacketType) (ch s1 s2 s3 s4 : Nat) (cid : List Nat)
    (hlen : cid.length ≤ 255) :
    PolycomHeader.encode ⟨pt, ch, (s1, s2, s3, s4), cid⟩ =
      .ok (pt.toOpCode :: ch :: s1 :: s2 :: s3 :: s4 :: max cid.length 13
        :: (cid ++ List.replicate (13 - cid.length) 0)) := by
  unfold PolycomHeader.encode
  rw [if_neg (by simp only; omega)]
  dsimp only
  by_cases hc : cid.length < 13
  · rw [if_pos hc]
    have hmax : max cid.length 13 = 13 := by omega
    rw [hmax]
    have hcount : 7 + 13 - (pt.toOpCode :: ch :: s1 :: s2 :: s3 :: s4 :: 13 :: cid).length
        = 13 - cid.length := by
      simp only [List.length_cons]
      omega
    rw [hcount]
    simp [List.cons_append]
  · rw [if_neg hc]
    have hmax : max cid.length 13 = cid.length := by omega
    have hz : 13 - cid.length = 0 := by omega
    rw [hmax, hz]
    simp

/-- C3 (amended: the caller ID must contain no NUL byte — `parse` trims at
the first NUL): encode succeeds, has length `7 + max n 13`, and parse
returns the original header together with the consumed length. -/
theorem C3_header_roundtrip (h : PolycomHeader) (hlen : h.callerId.length ≤ 255)
    (hch1 : 1 ≤ h.channel) (hch2 : h.channel ≤ 50) (hnul : ∀ x ∈ h.callerId, x ≠ 0) :
    ∃ bs, h.encode = .ok bs ∧ bs.length = 7 + max h.callerId.length 13 ∧
      PolycomHeader.parse bs = .ok (h, bs.length) := by
  obtain ⟨pt, ch, ⟨s1, s2, s3, s4⟩, cid⟩ := h
  simp only at hlen hnul ⊢
  refine ⟨_, encode_eq pt ch s1 s2 s3 s4 cid hlen, ?_, ?_⟩
  · simp [List.length_cons, List.length_append, List.length_replicate]
    omega
  · have hrest : (cid ++ List.replicate (13 - cid.length) 0).length = max cid.length 13 := by
      simp [List.length_append, List.length_replicate]
      omega
    rw [parse_cons pt ch s1 s2 s3 s4 (max cid.length 13)
      (cid ++ List.replicate (13 - cid.length) 0) hch1 hch2 hrest (by omega)]
    rw [takeWhile_append_zeros cid _ hnul]
    have hblen : (pt.toOpCode :: ch :: s1 :: s2 :: s3 :: s4 :: max cid.length 13
        :: (cid ++ List.replicate (13 - cid.length) 0)).length = 7 + max cid.length 13 := by
      simp [List.length_cons, List.length_append, List.length_replicate]
      omega
    rw [hblen]

/-- Witness for C3 at a concrete header. -/
theorem C3_witness :
    ∃ bs, (PolycomHeader.mk .alert 26 (0xAB, 0xCD, 0xEF, 0x01) [84, 101]).encode = .ok bs ∧
      bs.length = 7 + max 2 13 ∧
      PolycomHeader.parse bs =
        .ok (⟨.alert, 26, (0xAB, 0xCD, 0xEF, 0x01), [84, 101]⟩, bs.length) :=
  C3_header_roundtrip ⟨.alert, 26, (0xAB, 0xCD, 0xEF, 0x01), [84, 101]⟩
    (by norm_num) (by norm_num) (by norm_num) (by decide)

/-- C3 counterexample: a caller ID consisting of a single NUL byte survives
encode but parses back empty, so `parse (encode h).caller_id ≠ c`. -/
theorem C3_counterexample :
    (PolycomHeader.encode ⟨.alert, 26, (0, 0, 0, 0), [0]⟩).bind PolycomHeader.parse
        = .ok (⟨.alert, 26, (0, 0, 0, 0), []⟩, 20) ∧
      ([] : List Nat) ≠ [0] := by
  constructor
  · rfl
  · decide

/-- C4 counterexample: with G.722 a transmit build advances the counter by
`frame_size() = 160` bytes, not the 320 samples per 20 ms frame claimed. -/
theorem C4_counterexample :
    ((PolycomPacketBuilder.new 26 (0, 0, 0, 0) [77] .g722 0).buildTransmit
        (List.replicate 160 0)).map (fun r => r.2.sampleCount) = .ok 160 ∧
      (PolycomPacketBuilder.new 26 (0, 0, 0, 0) [77] .g722 0).sampleCount = 0 ∧
      (160 : Nat) ≠ (0 + 320) % 2 ^ 32 := by
  refine ⟨rfl, rfl, by norm_num⟩

/-- C4 (amended: the counter advances by `codec.frame_size()`, which is 160
bytes for G.711 mu-law, G.711 A-law and G.722 alike — not 320 for G.722):
the counter is seeded from the clock hash (a 32-bit value) at construction
and on reset, and each successful transmit build advances it by
`frame_size()` mod `2^32`. -/
theorem C4_sample_counter (b : PolycomPacketBuilder) (frame out1 : List Nat)
    (b' : PolycomPacketBuilder) (h : b.buildTransmit frame = .ok (out1, b')) :
    b'.sampleCount = (b.sampleCount + b.codec.frameSize) % 2 ^ 32 ∧
      b.codec.frameSize = 160 ∧
      (∀ ch hs cid c seed, (PolycomPacketBuilder.new ch hs cid c seed).sampleCount
        = generateInitialSampleCount seed) ∧
      (∀ seed, (b.reset seed).sampleCount = generateInitialSampleCount seed) ∧
      (∀ seed, generateInitialSampleCount seed < 2 ^ 32) := by
  refine ⟨?_, ?_, fun _ _ _ _ _ => rfl, fun _ => rfl, ?_⟩
  · unfold PolycomPacketBuilder.buildTransmit at h
    dsimp only at h
    split at h
    · exact absurd h (by simp)
    · simp only [Except.ok.injEq, Prod.mk.injEq] at h
      rw [← h.2]
  · cases hc : b.codec <;> rfl
  · intro seed
    unfold generateInitialSampleCount
    rw [Nat.shiftRight_eq_div_pow]
    have h64 : (2 : Nat) ^ 64 = 18446744073709551616 := by norm_num
    have h32 : (2 : Nat) ^ 32 = 4294967296 := by norm_num
    rw [h64, h32]
    omega

/-- Witness for C4 at a concrete builder and frame. -/
theorem C4_witness :
    ∃ out1 b',
      (PolycomPacketBuilder.new 26 (0, 0, 0, 0) [77] .g711u 5).buildTransmit
        (List.replicate 160 7) = .ok (out1, b') ∧
      b'.sampleCount = ((PolycomPacketBuilder.new 26 (0, 0, 0, 0) [77] .g711u 5).sampleCount
        + PolycomCodec.g711u.frameSize) % 2 ^ 32 ∧
      PolycomCodec.g711u.frameSize = 160 := by
  refine ⟨_, _, rfl, ?_, ?_⟩
  · exact (C4_sample_counter (PolycomPacketBuilder.new 26 (0, 0, 0, 0) [77] .g711u 5)
      (List.replicate 160 7) _ _ rfl).1
  · exact (C4_sample_counter (PolycomPacketBuilder.new 26 (0, 0, 0, 0) [77] .g711u 5)
      (List.replicate 160 7) _ _ rfl).2.1

lemma update_ending_invariant (s : PolycomSession) (p : PolycomPacket)
    (h : s.state = .ending ↔ 1 ≤ s.endCount) :
    (s.update p).state = .ending ↔ 1 ≤ (s.update p).endCount := by
  unfold PolycomSession.update
  rcases p.header.packetType <;> dsimp only
  · exact h
  · rcases p.audioHeader with _ | ah <;> dsimp only <;>
      (split <;> simp_all)
  · simp

lemma foldl_ending_invariant (ps : List PolycomPacket) (s : PolycomSession)
    (h : s.state = .ending ↔ 1 ≤ s.endCount) :
    (ps.foldl PolycomSession.update s).state = .ending ↔
      1 ≤ (ps.foldl PolycomSession.update s).endCount := by
  induction ps generalizing s with
  | nil => exact h
  | cons p ps ih => exact ih (s.update p) (update_ending_invariant s p h)

/-- C9: from an alert-created session, after any packet sequence,
`is_complete` holds iff at least 3 End packets were seen; any End packet puts
the session in `Ending`, and `Ending` is absorbing under `update`. -/
theorem C9_session_complete (p0 : PolycomPacket) (ps : List PolycomPacket) :
    ((ps.foldl PolycomSession.update (PolycomSession.fromAlert p0)).isComplete = true ↔
      3 ≤ (ps.foldl PolycomSession.update (PolycomSession.fromAlert p0)).endCount) ∧
    (∀ t q, t.state = SessionState.ending →
      (PolycomSession.update t q).state = SessionState.ending) ∧
    (∀ t q, q.header.packetType = PacketType.finish →
      (PolycomSession.update t q).state = SessionState.ending) := by
  refine ⟨?_, ?_, ?_⟩
  · have hinv := foldl_ending_invariant ps (PolycomSession.fromAlert p0) (by simp [PolycomSession.fromAlert])
    unfold PolycomSession.isComplete
    constructor
    · intro hc
      simp only [Bool.and_eq_true, beq_iff_eq, decide_eq_true_eq] at hc
      exact hc.2
    · intro hc
      have hst : (ps.foldl PolycomSession.update (PolycomSession.fromAlert p0)).state
          = SessionState.ending := hinv.mpr (by omega)
      simp [hst, hc]
  · intro t q ht
    unfold PolycomSession.update
    split
    · simpa using ht
    · dsimp only
      rw [if_neg (by rw [ht]; simp)]
      split <;> simpa using ht
    · simp
  · intro t q hq
    unfold PolycomSession.update
    rw [hq]

/-- Witness for C9: three End packets complete a session. -/
theorem C9_witness :
    (([⟨⟨.finish, 26, (0, 0, 0, 0), []⟩, none, none, none⟩,
      ⟨⟨.finish, 26, (0, 0, 0, 0), []⟩, none, none, none⟩,
      ⟨⟨.finish, 26, (0, 0, 0, 0), []⟩, none, none, none⟩] :
        List PolycomPacket).foldl PolycomSession.update
      (PolycomSession.fromAlert ⟨⟨.alert, 26, (0, 0, 0, 0), [84]⟩, none, none, none⟩)).isComplete
      = true := by
  have h := C9_session_complete ⟨⟨.alert, 26, (0, 0, 0, 0), [84]⟩, none, none, none⟩
    [⟨⟨.finish, 26, (0, 0, 0, 0), []⟩, none, none, none⟩,
      ⟨⟨.finish, 26, (0, 0, 0, 0), []⟩, none, none, none⟩,
      ⟨⟨.finish, 26, (0, 0, 0, 0), []⟩, none, none, none⟩]
  exact h.1.mpr (by decide)

end Polycom

namespace Monitor

/-- C5: with previous sequence `s` and current `c`, let
`g = (c - s) mod 2^16`: exactly `g - 1` losses are added when `1 < g < 1000`,
none otherwise, and received always advances by one. -/
theorem C5_loss_accounting (st : PageStats) (s c len : Nat) (hs : s < 2 ^ 16)
    (hc : c < 2 ^ 16) (hlast : st.lastSequence = some s) :
    (st.update c len).packetsReceived = st.packetsReceived + 1 ∧
      (st.update c len).packetsLost =
        (if 1 < (c + 2 ^ 16 - s) % 2 ^ 16 ∧ (c + 2 ^ 16 - s) % 2 ^ 16 < 1000
          then st.packetsLost + ((c + 2 ^ 16 - s) % 2 ^ 16 - 1)
          else st.packetsLost) := by
  unfold PageStats.update
  rw [hlast]
  dsimp only
  by_cases he : c = (s + 1) % 2 ^ 16
  · rw [if_neg (by omega)]
    have hg : (c + 2 ^ 16 - s) % 2 ^ 16 = 1 := by omega
    rw [hg]
    exact ⟨rfl, by norm_num⟩
  · rw [if_pos (by omega)]
    by_cases hgap : 1 < (c + 2 ^ 16 - s) % 2 ^ 16 ∧ (c + 2 ^ 16 - s) % 2 ^ 16 < 1000
    · rw [if_pos hgap, if_pos hgap]
      exact ⟨rfl, rfl⟩
    · rw [if_neg hgap, if_neg hgap]
      exact ⟨rfl, rfl⟩

/-- Witness for C5: a gap of 5 attributes 4 losses. -/
theorem C5_witness :
    ((PageStats.mk 3 480 0 (some 10)).update 15 160).packetsReceived = 3 + 1 ∧
      ((PageStats.mk 3 480 0 (some 10)).update 15 160).packetsLost =
        (if 1 < (15 + 2 ^ 16 - 10) % 2 ^ 16 ∧ (15 + 2 ^ 16 - 10) % 2 ^ 16 < 1000
          then 0 + ((15 + 2 ^ 16 - 10) % 2 ^ 16 - 1) else 0) :=
  C5_loss_accounting ⟨3, 480, 0, some 10⟩ 10 15 160 (by norm_num) (by norm_num) rfl

end Monitor

namespace Transmit

lemma rustCastI16_intCast (n : ℤ) (h1 : -32768 ≤ n) (h2 : n ≤ 32767) :
    rustCastI16 ((n : ℤ) : ℚ) = n := by
  unfold rustCastI16 rustTrunc
  rcases le_or_lt 0 ((n : ℚ)) with h | h
  · rw [if_pos h, Int.floor_intCast]
    omega
  · rw [if_neg (not_le.mpr h), Int.ceil_intCast]
    omega

lemma floorLog2_spec (q : ℚ) (hq : 0 < q) :
    (2 : ℚ) ^ floorLog2 q ≤ q ∧ q < 2 ^ (floorLog2 q + 1) := by
  have hnum : 0 < q.num := Rat.num_pos.mpr hq
  have ha0 : q.num.natAbs ≠ 0 := by omega
  have hb0 : q.den ≠ 0 := q.den_nz
  have hA1 : 2 ^ Nat.log2 q.num.natAbs ≤ q.num.natAbs := Nat.log2_self_le ha0
  have hA2 : q.num.natAbs < 2 ^ (Nat.log2 q.num.natAbs + 1) := Nat.lt_log2_self
  have hB1 : 2 ^ Nat.log2 q.den ≤ q.den := Nat.log2_self_le hb0
  have hB2 : q.den < 2 ^ (Nat.log2 q.den + 1) := Nat.lt_log2_self
  have hcast : ((q.num.natAbs : ℕ) : ℚ) = (q.num : ℚ) := by
    rw [Int.cast_natAbs, abs_of_pos hnum]
  have hq_eq : q = (q.num.natAbs : ℚ) / (q.den : ℚ) := by
    rw [hcast]; exact (Rat.num_div_den q).symm
  have hfl : floorLog2 q =
      if q.den * 2 ^ Nat.log2 q.num.natAbs ≤ q.num.natAbs * 2 ^ Nat.log2 q.den
      then (Nat.log2 q.num.natAbs : ℤ) - (Nat.log2 q.den : ℤ)
      else (Nat.log2 q.num.natAbs : ℤ) - (Nat.log2 q.den : ℤ) - 1 := rfl
  set A := q.num.natAbs with hA
  set B := q.den with hB
  set la := Nat.log2 A with hla
  set lb := Nat.log2 B with hlb
  rw [hfl, hq_eq]
  have hApos : (0 : ℚ) < (A : ℚ) := by
    have h := Nat.pos_of_ne_zero ha0
    exact_mod_cast h
  have hBpos : (0 : ℚ) < (B : ℚ) := by
    have h := Nat.pos_of_ne_zero hb0
    exact_mod_cast h
  have hA1q : (2 : ℚ) ^ la ≤ (A : ℚ) := by exact_mod_cast hA1
  have hA2q : (A : ℚ) < 2 ^ (la + 1) := by exact_mod_cast hA2
  have hB1q : (2 : ℚ) ^ lb ≤ (B : ℚ) := by exact_mod_cast hB1
  have hB2q : (B : ℚ) < 2 ^ (lb + 1) := by exact_mod_cast hB2
  split_ifs with hbr
  · have hbrq : (B : ℚ) * 2 ^ la ≤ (A : ℚ) * 2 ^ lb := by exact_mod_cast hbr
    constructor
    · rw [show (2 : ℚ) ^ ((la : ℤ) - (lb : ℤ)) = 2 ^ la / 2 ^ lb by
        rw [zpow_sub₀ (two_ne_zero), zpow_natCast, zpow_natCast]]
      rw [div_le_div_iff₀ (by positivity) hBpos]
      linarith
    · rw [show (2 : ℚ) ^ ((la : ℤ) - (lb : ℤ) + 1) = 2 ^ (la + 1) / 2 ^ lb by
        rw [show (la : ℤ) - (lb : ℤ) + 1 = ((la + 1 : ℕ) : ℤ) - ((lb : ℕ) : ℤ) by push_cast; ring,
          zpow_sub₀ (two_ne_zero), zpow_natCast, zpow_natCast]]
      rw [div_lt_div_iff₀ hBpos (by positivity)]
      calc (A : ℚ) * 2 ^ lb < 2 ^ (la + 1) * 2 ^ lb :=
            mul_lt_mul_of_pos_right hA2q (by positivity)
        _ ≤ 2 ^ (la + 1) * (B : ℚ) := mul_le_mul_of_nonneg_left hB1q (by positivity)
  · have hbrq : (A : ℚ) * 2 ^ lb < (B : ℚ) * 2 ^ la := by exact_mod_cast not_le.mp hbr
    constructor
    · rw [show (2 : ℚ) ^ ((la : ℤ) - (lb : ℤ) - 1) = 2 ^ la / 2 ^ (lb + 1) by
        rw [show (la : ℤ) - (lb : ℤ) - 1 = ((la : ℕ) : ℤ) - ((lb + 1 : ℕ) : ℤ) by push_cast; ring,
          zpow_sub₀ (two_ne_zero), zpow_natCast, zpow_natCast]]
      rw [div_le_div_iff₀ (by positivity) hBpos]
      calc (2 : ℚ) ^ la * (B : ℚ) ≤ (A : ℚ) * (B : ℚ) :=
            mul_le_mul_of_nonneg_right hA1q hBpos.le
        _ ≤ (A : ℚ) * 2 ^ (lb + 1) := mul_le_mul_of_nonneg_left hB2q.le hApos.le
    · rw [show (2 : ℚ) ^ ((la : ℤ) - (lb : ℤ) - 1 + 1) = 2 ^ la / 2 ^ lb by
        rw [show (la : ℤ) - (lb : ℤ) - 1 + 1 = ((la : ℕ) : ℤ) - ((lb : ℕ) : ℤ) by ring,
          zpow_sub₀ (two_ne_zero), zpow_natCast, zpow_natCast]]
      rw [div_lt_div_iff₀ hBpos (by positivity)]
      linarith

lemma floorLog2_eq_of (q : ℚ) (E : ℤ) (hq : 0 < q)
    (h1 : 2 ^ E ≤ q) (h2 : q < 2 ^ (E + 1)) : floorLog2 q = E := by
  obtain ⟨g1, g2⟩ := floorLog2_spec q hq
  by_contra hne
  rcases lt_or_gt_of_ne hne with hlt | hgt
  · have hmono : (2 : ℚ) ^ (floorLog2 q + 1) ≤ 2 ^ E :=
      zpow_le_zpow_right₀ one_le_two (by omega)
    linarith
  · have hmono : (2 : ℚ) ^ (E + 1) ≤ 2 ^ floorLog2 q :=
      zpow_le_zpow_right₀ one_le_two (by omega)
    linarith

lemma roundHalfEven_eq_down (s : ℚ) (n : ℤ) (h1 : (n : ℚ) ≤ s) (h2 : s < (n : ℚ) + 1 / 2) :
    roundHalfEven s = n := by
  have hfl : ⌊s⌋ = n := by
    rw [Int.floor_eq_iff]
    exact ⟨h1, by linarith⟩
  simp only [roundHalfEven, hfl]
  rw [if_pos (by linarith : s - (n : ℚ) < 1 / 2)]

lemma roundHalfEven_eq_up (s : ℚ) (n : ℤ) (h1 : (n : ℚ) + 1 / 2 < s) (h2 : s < (n : ℚ) + 1) :
    roundHalfEven s = n + 1 := by
  have hfl : ⌊s⌋ = n := by
    rw [Int.floor_eq_iff]
    exact ⟨by linarith, by linarith⟩
  simp only [roundHalfEven, hfl]
  rw [if_neg (by linarith : ¬ s - (n : ℚ) < 1 / 2),
    if_pos (by linarith : (1 : ℚ) / 2 < s - (n : ℚ))]

lemma roundF64_pos (q : ℚ) (hq : 0 < q) :
    roundF64 q = (roundHalfEven (q * 2 ^ (52 - floorLog2 q)) : ℚ) * 2 ^ (floorLog2 q - 52) := by
  simp only [roundF64, if_neg hq.ne', if_neg (not_lt.mpr hq.le), abs_of_pos hq, one_mul, neg_sub]

lemma roundF64_eq_down (q : ℚ) (E n : ℤ) (hq : 0 < q)
    (h1 : 2 ^ E ≤ q) (h2 : q < 2 ^ (E + 1))
    (hn1 : (n : ℚ) ≤ q * 2 ^ (52 - E)) (hn2 : q * 2 ^ (52 - E) < (n : ℚ) + 1 / 2) :
    roundF64 q = (n : ℚ) * 2 ^ (E - 52) := by
  rw [roundF64_pos q hq, floorLog2_eq_of q E hq h1 h2, roundHalfEven_eq_down _ n hn1 hn2]

lemma roundF64_eq_up (q : ℚ) (E n : ℤ) (hq : 0 < q)
    (h1 : 2 ^ E ≤ q) (h2 : q < 2 ^ (E + 1))
    (hn1 : (n : ℚ) + 1 / 2 < q * 2 ^ (52 - E)) (hn2 : q * 2 ^ (52 - E) < (n : ℚ) + 1) :
    roundF64 q = ((n + 1 : ℤ) : ℚ) * 2 ^ (E - 52) := by
  rw [roundF64_pos q hq, floorLog2_eq_of q E hq h1 h2, roundHalfEven_eq_up _ n hn1 hn2]

lemma roundF64_zero : roundF64 0 = 0 := by
  simp [roundF64]

lemma roundF64_natCast (m : ℕ) (h : m < 2 ^ 53) : roundF64 (m : ℚ) = m := by
  rcases Nat.eq_zero_or_pos m with rfl | hm
  · simp [roundF64]
  · have hq : (0 : ℚ) < (m : ℚ) := by exact_mod_cast hm
    have h1n : 2 ^ Nat.log2 m ≤ m := Nat.log2_self_le hm.ne'
    have h2n : m < 2 ^ (Nat.log2 m + 1) := Nat.lt_log2_self
    have hL52 : Nat.log2 m ≤ 52 := by
      by_contra hc
      have hpow : 2 ^ 53 ≤ 2 ^ Nat.log2 m := Nat.pow_le_pow_right (by norm_num) (by omega)
      omega
    generalize hL : Nat.log2 m = L at h1n h2n hL52
    have h1 : (2 : ℚ) ^ ((L : ℕ) : ℤ) ≤ (m : ℚ) := by
      rw [zpow_natCast]; exact_mod_cast h1n
    have h2 : (m : ℚ) < 2 ^ (((L : ℕ) : ℤ) + 1) := by
      rw [show ((L : ℕ) : ℤ) + 1 = ((L + 1 : ℕ) : ℤ) by push_cast; ring, zpow_natCast]
      exact_mod_cast h2n
    have hscaled : (m : ℚ) * 2 ^ ((52 : ℤ) - (L : ℕ)) = (((m * 2 ^ (52 - L) : ℕ) : ℤ) : ℚ) := by
      rw [show ((52 : ℤ) - (L : ℕ)) = ((52 - L : ℕ) : ℤ) by omega, zpow_natCast]
      push_cast
      ring
    have hmain := roundF64_eq_down (m : ℚ) ((L : ℕ) : ℤ) ((m * 2 ^ (52 - L) : ℕ) : ℤ) hq h1 h2
      (by rw [hscaled]) (by rw [hscaled]; linarith)
    rw [hmain, ← hscaled, mul_assoc, ← zpow_add₀ (two_ne_zero : (2 : ℚ) ≠ 0)]
    rw [show ((52 : ℤ) - (L : ℕ) + ((L : ℕ) - 52)) = 0 by ring, zpow_zero, mul_one]

lemma roundF64_neg (q : ℚ) : roundF64 (-q) = -roundF64 q := by
  rcases lt_trichotomy q 0 with hlt | rfl | hgt
  · have h1 : ¬ (-q = 0) := by intro hc; exact hlt.ne (by linarith)
    simp only [roundF64, if_neg h1, if_neg hlt.ne, abs_neg]
    rw [if_neg (by linarith : ¬ -q < 0), if_pos hlt]
    ring
  · simp [roundF64]
  · have h1 : ¬ (-q = 0) := by intro hc; exact hgt.ne' (by linarith)
    simp only [roundF64, if_neg h1, if_neg hgt.ne', abs_neg]
    rw [if_pos (by linarith : -q < 0), if_neg (by linarith : ¬ q < 0)]
    ring

lemma roundF64_intCast (m : ℤ) (h : m.natAbs < 2 ^ 53) : roundF64 ((m : ℤ) : ℚ) = m := by
  rcases le_or_lt 0 m with hm | hm
  · obtain ⟨k, rfl⟩ := Int.eq_ofNat_of_zero_le hm
    rw [show (((k : ℕ) : ℤ) : ℚ) = ((k : ℕ) : ℚ) by push_cast; ring,
      roundF64_natCast k (by simpa using h)]
  · have hcast2 : ((m : ℤ) : ℚ) = -((m.natAbs : ℕ) : ℚ) := by
      rw [Int.cast_natAbs, abs_of_neg hm]
      push_cast
      ring
    rw [hcast2, roundF64_neg, roundF64_natCast m.natAbs h]

lemma roundF64_one : roundF64 1 = 1 := by
  have h := roundF64_natCast 1 (by norm_num)
  simpa using h

/-- C6 counterexample: 480 samples resampled from 48000 Hz to 44100 Hz yield
440 output samples, not the exact-rational `floor(480 * 44100 / 48000) = 441`:
the two `f64` roundings (of the ratio, then of the quotient) land just below
441. -/
theorem C6_counterexample :
    (simple_resample (List.replicate 480 0) 48000 44100).length = 440 ∧
      (List.replicate (480 : ℕ) (0 : ℤ)).length * 44100 / 48000 = 441 ∧
      (440 : ℕ) ≠ 441 := by
  refine ⟨?_, by norm_num [List.length_replicate], by norm_num⟩
  unfold simple_resample
  simp only [List.length_map, List.length_range, List.length_replicate, Nat.cast_ofNat]
  have e1 : roundF64 (48000 : ℚ) = 48000 := by
    have h := roundF64_natCast 48000 (by norm_num)
    simpa using h
  have e2 : roundF64 (44100 : ℚ) = 44100 := by
    have h := roundF64_natCast 44100 (by norm_num)
    simpa using h
  have e3 : roundF64 (480 : ℚ) = 480 := by
    have h := roundF64_natCast 480 (by norm_num)
    simpa using h
  rw [e1, e2, e3]
  have hstep1 : fdiv (48000 : ℚ) 44100 = 4901877145437275 * 2 ^ (-52 : ℤ) := by
    unfold fdiv
    have h := roundF64_eq_up ((48000 : ℚ) / 44100) 0 4901877145437274 (by norm_num)
      (by norm_num) (by norm_num) (by norm_num) (by norm_num)
    rw [h]
    norm_num
  rw [hstep1]
  have hstep2 : fdiv (480 : ℚ) (4901877145437275 * 2 ^ (-52 : ℤ))
      = 7758154045587455 * 2 ^ (-44 : ℤ) := by
    unfold fdiv
    have h := roundF64_eq_down ((480 : ℚ) / (4901877145437275 * 2 ^ (-52 : ℤ))) 8
      7758154045587455 (by norm_num) (by norm_num) (by norm_num) (by norm_num) (by norm_num)
    rw [h]
    norm_num
  rw [hstep2]
  have hfl : ⌊(7758154045587455 : ℚ) * 2 ^ (-44 : ℤ)⌋ = 440 := by
    rw [Int.floor_eq_iff]
    norm_num
  rw [hfl]
  rfl

/-- C6 (amended): with equal rates `r1 = r2 > 0` (both below `2^53`, as `u32`
values are) and fewer than `2^53` samples, `simple_resample` is the identity
and its output length is `|xs| * r2 / r1 = |xs|`. -/
theorem C6_resample_equal_rates (samples : List Int) (r1 r2 : Nat)
    (h1 : 0 < r1) (heq : r1 = r2) (hlen : samples.length < 2 ^ 53) (hr53 : r1 < 2 ^ 53)
    (hr : ∀ x ∈ samples, -32768 ≤ x ∧ x ≤ 32767) :
    simple_resample samples r1 r2 = samples ∧
      (simple_resample samples r1 r2).length = samples.length * r2 / r1 := by
  subst heq
  have hrQ : roundF64 ((r1 : ℕ) : ℚ) = ((r1 : ℕ) : ℚ) := roundF64_natCast r1 hr53
  have hr0 : ((r1 : ℕ) : ℚ) ≠ 0 := by
    have hpos : (0 : ℚ) < ((r1 : ℕ) : ℚ) := by exact_mod_cast h1
    exact hpos.ne'
  have hratio : fdiv (roundF64 ((r1 : ℕ) : ℚ)) (roundF64 ((r1 : ℕ) : ℚ)) = 1 := by
    rw [hrQ]
    unfold fdiv
    rw [div_self hr0, roundF64_one]
  have hlenQ : roundF64 ((samples.length : ℕ) : ℚ) = ((samples.length : ℕ) : ℚ) :=
    roundF64_natCast _ hlen
  have hnewLen : (⌊fdiv (roundF64 ((samples.length : ℕ) : ℚ)) 1⌋).toNat = samples.length := by
    unfold fdiv
    rw [hlenQ, div_one, hlenQ, Int.floor_natCast, Int.toNat_natCast]
  have hmain : simple_resample samples r1 r1 = samples := by
    unfold simple_resample
    simp only [hratio]
    rw [hnewLen]
    refine List.ext_getElem (by simp) ?_
    intro i hi1 hi2
    simp only [List.getElem_map, List.getElem_range]
    have hiL : i < samples.length := by simpa using hi1
    have hi53 : i < 2 ^ 53 := by omega
    have hpos : fmul (roundF64 ((i : ℕ) : ℚ)) 1 = ((i : ℕ) : ℚ) := by
      have hiQ := roundF64_natCast i hi53
      unfold fmul
      rw [hiQ, mul_one, hiQ]
    simp only [hpos, Int.floor_natCast, Int.toNat_natCast, Int.cast_natCast, sub_self]
    have hgetD : samples.getD i 0 = samples[i] := List.getD_eq_getElem samples 0 hiL
    by_cases hend : samples.length ≤ i + 1
    · rw [if_pos hend]
      have hmin : min i (samples.length - 1) = i := by omega
      rw [hmin, hgetD]
    · rw [if_neg hend]
      have hx := hr samples[i] (List.getElem_mem hiL)
      have hsi : roundF64 ((samples[i] : ℤ) : ℚ) = ((samples[i] : ℤ) : ℚ) :=
        roundF64_intCast samples[i] (by omega)
      simp only [fmul, mul_zero, roundF64_zero, fadd, add_zero, hgetD, hsi]
      exact rustCastI16_intCast samples[i] hx.1 hx.2
  refine ⟨hmain, ?_⟩
  rw [hmain, Nat.mul_div_cancel _ h1]

/-- Witness for the amended C6 at a concrete list and equal rate pair. -/
theorem C6_witness :
    simple_resample [1, -32768, 32767] 8000 8000 = [1, -32768, 32767] ∧
      (simple_resample [1, -32768, 32767] 8000 8000).length
        = ([1, -32768, 32767] : List Int).length * 8000 / 8000 :=
  C6_resample_equal_rates [1, -32768, 32767] 8000 8000 (by norm_num) rfl
    (by norm_num) (by norm_num) (by decide)

end Transmit

namespace Analyzer

lemma pass_zero (gt : Int) (samples : List Int) (hz : ∀ x ∈ samples, x = 0)
    (st : PassState) (h : st.sumSquares = 0) :
    (samples.foldl (passStep gt) st).sumSquares = 0 := by
  induction samples generalizing st with
  | nil => exact h
  | cons x xs ih =>
    have hx : x = 0 := hz x (by simp)
    have hxs : ∀ y ∈ xs, y = 0 := fun y hy => hz y (by simp [hy])
    refine ih hxs _ ?_
    unfold passStep
    dsimp only
    rw [h, hx]
    norm_num

lemma updatePeaks_proj (stats : AudioStats) (an : AudioAnalysis) :
    (updatePeaks stats an).silent_frames = stats.silent_frames ∧
      (updatePeaks stats an).rms_sum = stats.rms_sum ∧
      (updatePeaks stats an).rms_count = stats.rms_count := by
  unfold updatePeaks
  dsimp only
  split <;> split <;> exact ⟨rfl, rfl, rfl⟩

lemma updateRmsAcc_proj (stats : AudioStats) (an : AudioAnalysis)
    (h : an.rms_db = .negInf) :
    (updateRmsAcc stats an).silent_frames = stats.silent_frames ∧
      (updateRmsAcc stats an).rms_sum = stats.rms_sum ∧
      (updateRmsAcc stats an).rms_count = stats.rms_count := by
  unfold updateRmsAcc
  rw [h]
  exact ⟨rfl, rfl, rfl⟩

lemma updateTotals_proj (stats : AudioStats) (an : AudioAnalysis) :
    (updateTotals stats an).silent_frames = stats.silent_frames ∧
      (updateTotals stats an).rms_sum = stats.rms_sum ∧
      (updateTotals stats an).rms_count = stats.rms_count :=
  ⟨rfl, rfl, rfl⟩

lemma updateSilent_proj (stats : AudioStats) (an : AudioAnalysis)
    (h : an.is_silence = true) :
    (updateSilent stats an).silent_frames = stats.silent_frames + 1 ∧
      (updateSilent stats an).rms_sum = stats.rms_sum ∧
      (updateSilent stats an).rms_count = stats.rms_count := by
  unfold updateSilent
  rw [h]
  exact ⟨rfl, rfl, rfl⟩

lemma updateFreqBins_proj (stats : AudioStats) (an : AudioAnalysis) :
    (updateFreqBins stats an).silent_frames = stats.silent_frames ∧
      (updateFreqBins stats an).rms_sum = stats.rms_sum ∧
      (updateFreqBins stats an).rms_count = stats.rms_count := by
  unfold updateFreqBins
  split <;> exact ⟨rfl, rfl, rfl⟩

lemma updateDominant_proj (stats : AudioStats) :
    (updateDominant (updateAverages stats)).silent_frames = stats.silent_frames ∧
      (updateDominant (updateAverages stats)).rms_sum = stats.rms_sum ∧
      (updateDominant (updateAverages stats)).rms_count = stats.rms_count := by
  unfold updateDominant updateAverages
  dsimp only
  split <;> exact ⟨rfl, rfl, rfl⟩

lemma updateCounts_proj (stats : AudioStats) (n : Nat) :
    (updateCounts stats n).silent_frames = stats.silent_frames ∧
      (updateCounts stats n).rms_sum = stats.rms_sum ∧
      (updateCounts stats n).rms_count = stats.rms_count :=
  ⟨rfl, rfl, rfl⟩

lemma update_silent_rms (stats : AudioStats) (an : AudioAnalysis) (n : Nat)
    (hsil : an.is_silence = true) (hrms : an.rms_db = .negInf) :
    (stats.update an n).silent_frames = stats.silent_frames + 1 ∧
      (stats.update an n).rms_sum = stats.rms_sum ∧
      (stats.update an n).rms_count = stats.rms_count := by
  unfold AudioStats.update
  dsimp only
  set s0 : AudioStats := updateCounts stats n with hs0
  obtain ⟨c1, c2, c3⟩ := updateCounts_proj stats n
  obtain ⟨p1, p2, p3⟩ := updatePeaks_proj s0 an
  obtain ⟨r1, r2, r3⟩ := updateRmsAcc_proj (updatePeaks s0 an) an hrms
  obtain ⟨t1, t2, t3⟩ := updateTotals_proj (updateRmsAcc (updatePeaks s0 an) an) an
  obtain ⟨sl1, sl2, sl3⟩ := updateSilent_proj
    (updateTotals (updateRmsAcc (updatePeaks s0 an) an) an) an hsil
  obtain ⟨f1, f2, f3⟩ := updateFreqBins_proj
    (updateSilent (updateTotals (updateRmsAcc (updatePeaks s0 an) an) an) an) an
  obtain ⟨d1, d2, d3⟩ := updateDominant_proj
    (updateFreqBins (updateSilent (updateTotals (updateRmsAcc (updatePeaks s0 an) an) an) an) an)
  refine ⟨?_, ?_, ?_⟩
  · rw [d1, f1, sl1, t1, r1, p1, hs0, c1]
  · rw [d2, f2, sl2, t2, r2, p2, hs0, c2]
  · rw [d3, f3, sl3, t3, r3, p3, hs0, c3]

/-- C7: an all-zero non-empty block analyzes to `is_silence = true` and
`rms_db = -inf`, and feeding that analysis to `AudioStats::update` adds one
silent frame while leaving the RMS mean accumulator (`rms_sum`, `rms_count`)
untouched. -/
theorem C7_silence_rollup (fftFreq : List Int → ℚ) (a : AudioAnalyzer)
    (samples : List Int) (stats : AudioStats) (n : Nat) (hne : samples ≠ [])
    (hz : ∀ x ∈ samples, x = 0)
    (hth : a.silenceThresholdDb = SILENCE_THRESHOLD_DB) :
    (analyze fftFreq a samples).1.is_silence = true ∧
      (analyze fftFreq a samples).1.rms_db = .negInf ∧
      (stats.update (analyze fftFreq a samples).1 n).silent_frames
        = stats.silent_frames + 1 ∧
      (stats.update (analyze fftFreq a samples).1 n).rms_sum = stats.rms_sum ∧
      (stats.update (analyze fftFreq a samples).1 n).rms_count = stats.rms_count := by
  obtain ⟨s0, rest, rfl⟩ : ∃ s0 rest, samples = s0 :: rest := by
    cases samples with
    | nil => exact absurd rfl hne
    | cons x xs => exact ⟨x, xs, rfl⟩
  have hsum := pass_zero a.glitchThreshold (s0 :: rest) hz
    ⟨0, 0, 0, 0, 0, 0, 0, (a.lastSample.getD s0)⟩ rfl
  have hmain : (analyze fftFreq a (s0 :: rest)).1.is_silence = true ∧
      (analyze fftFreq a (s0 :: rest)).1.rms_db = .negInf := by
    unfold analyze
    dsimp only
    rw [hsum]
    have hrms : ¬ (0 : ℚ) < 0 / ((s0 :: rest).length : ℚ) := by
      rw [zero_div]
      norm_num
    rw [if_neg hrms, hth]
    split <;> exact ⟨rfl, rfl⟩
  obtain ⟨u1, u2, u3⟩ := update_silent_rms stats ((analyze fftFreq a (s0 :: rest)).1) n
    hmain.1 hmain.2
  exact ⟨hmain.1, hmain.2, u1, u2, u3⟩

/-- Witness for C7 at a concrete analyzer, block and stats. -/
theorem C7_witness :
    (analyze (fun _ => 0) (AudioAnalyzer.new 8000) [0, 0, 0]).1.is_silence = true ∧
      (analyze (fun _ => 0) (AudioAnalyzer.new 8000) [0, 0, 0]).1.rms_db = .negInf ∧
      (AudioStats.new.update (analyze (fun _ => 0) (AudioAnalyzer.new 8000) [0, 0, 0]).1
        3).silent_frames = AudioStats.new.silent_frames + 1 ∧
      (AudioStats.new.update (analyze (fun _ => 0) (AudioAnalyzer.new 8000) [0, 0, 0]).1
        3).rms_sum = AudioStats.new.rms_sum ∧
      (AudioStats.new.update (analyze (fun _ => 0) (AudioAnalyzer.new 8000) [0, 0, 0]).1
        3).rms_count = AudioStats.new.rms_count :=
  C7_silence_rollup (fun _ => 0) (AudioAnalyzer.new 8000) [0, 0, 0] AudioStats.new 3
    (by decide) (by decide) rfl

/-- C10: analyzing an empty slice returns the default analysis — `rms_db` is
the finite 0.0 dB (`ratioSq 1`), not `-inf`; `is_silence` is false; counters
are zero — and the analyzer state (`last_sample`, sample buffer) is returned
unchanged. -/
theorem C10_empty_slice_default (fftFreq : List Int → ℚ) (a : AudioAnalyzer) :
    analyze fftFreq a [] = (AudioAnalysis.default, a) ∧
      AudioAnalysis.default.rms_db = Db.ratioSq 1 ∧
      AudioAnalysis.default.rms_db ≠ Db.negInf ∧
      AudioAnalysis.default.is_silence = false ∧
      AudioAnalysis.default.clipped_samples = 0 ∧
      AudioAnalysis.default.glitch_count = 0 ∧
      AudioAnalysis.default.repeated_samples = 0 ∧
      AudioAnalysis.default.dominant_freq_hz = 0 ∧
      AudioAnalysis.default.zero_crossing_rate = 0 ∧
      AudioAnalysis.default.dc_offset_percent = 0 :=
  ⟨rfl, rfl, by decide, rfl, rfl, rfl, rfl, rfl, rfl, rfl⟩

end Analyzer
